import Mathlib

/-!
Shallow embedding of `src/mice/components/data_validation.py`
(class `DataValidation`) and verification of its specification.

Modelling conventions:
* A pandas `DataFrame` is an ordered list of named columns together with a
  row count (`df.shape[0]`, i.e. the length of the pandas index, which
  survives even when every column is dropped).  A cell is `Option Val`:
  `none` is `NaN`, `some v` a concrete value.
* Python exceptions are `Except`: pandas/sklearn level failures are `PyErr`,
  and the repository's `MiceException` wrapper is `MErr` (each `try/except`
  boundary wraps the caught error together with a context string standing
  for the `sys` call-site information).
* Floating point ratios and p-values are modelled as `ℚ`.  The pandas
  comparison `NaN > t` (which arises from `0/0` when the frame has no rows)
  is `False`; the embedding makes that case explicit.
* `scipy.stats.ks_2samp` is a black-box two-sample test; it is a parameter
  (`ks`) of the drift functions, so theorems about the drift report hold
  for every possible output of the library call.
-/

namespace MiceValidation

/-- A scalar value held by a dataframe cell: numeric or string. -/
inductive Val : Type where
  | num (q : ℚ)
  | str (s : String)
  deriving DecidableEq, Repr

/-- A dataframe cell: `none` models `NaN` / missing data. -/
abbrev Cell : Type := Option Val

/-- A dataframe: a row count (the pandas index length, `df.shape[0]`)
and ordered named columns. -/
structure DataFrame : Type where
  nrows : ℕ
  cols : List (String × List Cell)
  deriving DecidableEq, Repr

/-- Column names in order (`df.columns`). -/
def colNames (df : DataFrame) : List String :=
  df.cols.map Prod.fst

/-- `df[c]`: the data of the first column named `c`, if any. -/
def getCol (df : DataFrame) (c : String) : Option (List Cell) :=
  (df.cols.find? (fun p => p.1 = c)).map Prod.snd

/-- `df[c] = xs`: replace the data of column `c` in place (pandas keeps the
column position); if absent, append a new column. -/
def setCol (df : DataFrame) (c : String) (xs : List Cell) : DataFrame :=
  { df with cols :=
      if df.cols.any (fun p => p.1 = c) then
        df.cols.map (fun p => if p.1 = c then (c, xs) else p)
      else
        df.cols ++ [(c, xs)] }

/-- `df.drop(list, axis=1)`: remove every column whose name is in `names`
(the pandas index, hence the row count, is untouched). -/
def removeCols (df : DataFrame) (names : List String) : DataFrame :=
  { df with cols := df.cols.filter (fun p => ¬ names.contains p.1) }

/-- Pandas-level exceptions raised by the library calls the source makes. -/
inductive PyErr : Type where
  | keyError (k : String)
  | valueError
  | attributeError
  | ioError (msg : String)
  deriving DecidableEq, Repr

/-- The repository's `MiceException`: every `except` block wraps the caught
error (a pandas-level error or an already-wrapped `MiceException`) with the
call context captured from `sys`. -/
inductive MErr : Type where
  | ofPy (cause : PyErr) (ctx : String)
  | ofMice (cause : MErr) (ctx : String)
  deriving DecidableEq, Repr

/-- The primitive error at the root of a (possibly nested) `MiceException`. -/
def MErr.origin : MErr → PyErr
  | .ofPy p _ => p
  | .ofMice m _ => m.origin

/-- A per-column drift result: `{"pvalues": float, "same_distribution": bool}`. -/
structure DriftRes : Type where
  pvalues : ℚ
  same_distribution : Bool
  deriving DecidableEq, Repr

/-- A value stored in the `validation_error` report dictionary. -/
inductive RVal : Type where
  | strs (l : List String)
  | driftMap (d : List (String × DriftRes))
  deriving DecidableEq, Repr

/-- The `validation_error` report: an insertion-ordered dictionary. -/
abbrev Report : Type := List (String × RVal)

/-- Python `dict` assignment `d[k] = v`: replace in place if the key exists
(keeping its position), else append. -/
def upsertA {α : Type} : List (String × α) → String → α → List (String × α)
  | [], k, v => [(k, v)]
  | (k', v') :: rest, k, v =>
      if k' = k then (k, v) :: rest else (k', v') :: upsertA rest k v

/-- Python `dict` lookup `d[k]` (first — and only — binding of `k`). -/
def lookupA {α : Type} : List (String × α) → String → Option α
  | [], _ => none
  | (k', v') :: rest, k => if k' = k then some v' else lookupA rest k

/-- The literal value-to-code dictionary for `Genotype`:
`{'Control': 0, 'Ts65Dn': 1}`. -/
def genotypeDict : List (Val × ℚ) :=
  [(.str "Control", 0), (.str "Ts65Dn", 1)]

/-- The literal value-to-code dictionary for `Treatment`:
`{'Saline': 0, 'Memantine': 1}`. -/
def treatmentDict : List (Val × ℚ) :=
  [(.str "Saline", 0), (.str "Memantine", 1)]

/-- The literal value-to-code dictionary for `Behavior`:
`{'C/S': 0, 'S/C': 1}`. -/
def behaviorDict : List (Val × ℚ) :=
  [(.str "C/S", 0), (.str "S/C", 1)]

/-- `series.map(dict)`: a value found in the dict becomes its code, any
other value — and `NaN` itself — becomes `NaN`. -/
def mapCell (dict : List (Val × ℚ)) (c : Cell) : Cell :=
  c.bind (fun v => (dict.lookup v).map Val.num)

/-- Comparison used by `np.unique` inside `LabelEncoder`: numbers before
strings, `NaN` sorted last. -/
def cellLE : Cell → Cell → Bool
  | none, none => true
  | none, some _ => false
  | some _, none => true
  | some (.num a), some (.num b) => decide (a ≤ b)
  | some (.str a), some (.str b) => decide (a ≤ b)
  | some (.num _), some (.str _) => true
  | some (.str _), some (.num _) => false

/-- The ordering relation on cells as a proposition. -/
def cellR (a b : Cell) : Prop := cellLE a b = true

instance : DecidableRel cellR := fun a b => decEq (cellLE a b) true

instance : IsTotal Cell cellR where
  total := by
    intro a b
    rcases a with _ | av <;> rcases b with _ | bv
    · exact Or.inl (by simp [cellR, cellLE])
    · exact Or.inr (by simp [cellR, cellLE])
    · exact Or.inl (by simp [cellR, cellLE])
    · rcases av with q1 | s1 <;> rcases bv with q2 | s2
      · rcases le_total q1 q2 with hle | hle
        · exact Or.inl (by simp [cellR, cellLE, hle])
        · exact Or.inr (by simp [cellR, cellLE, hle])
      · exact Or.inl (by simp [cellR, cellLE])
      · exact Or.inr (by simp [cellR, cellLE])
      · rcases le_total s1 s2 with hle | hle
        · exact Or.inl (by simp [cellR, cellLE, hle])
        · exact Or.inr (by simp [cellR, cellLE, hle])

instance : IsTrans Cell cellR where
  trans := by
    intro a b c hab hbc
    rcases a with _ | (q1 | s1) <;> rcases b with _ | (q2 | s2) <;>
      rcases c with _ | (q3 | s3) <;>
      simp_all only [cellR, cellLE, decide_eq_true_eq] <;>
      first
        | exact le_trans hab hbc
        | exact absurd hab (by decide)
        | exact absurd hbc (by decide)

instance : IsAntisymm Cell cellR where
  antisymm := by
    intro a b hab hba
    rcases a with _ | (q1 | s1) <;> rcases b with _ | (q2 | s2) <;>
      simp_all only [cellR, cellLE, decide_eq_true_eq] <;>
      first
        | exact congrArg (fun q : ℚ => (some (Val.num q) : Cell))
            (le_antisymm hab hba)
        | exact congrArg (fun s : String => (some (Val.str s) : Cell))
            (le_antisymm hab hba)
        | exact absurd hab (by decide)
        | exact absurd hba (by decide)

/-- `np.unique`: the sorted distinct values of a column. -/
def uniqueSorted (xs : List Cell) : List Cell :=
  (xs.insertionSort cellR).dedup

/-- `LabelEncoder().fit_transform(xs)`: each value becomes its rank among
the sorted distinct values of the column. -/
def labelTransform (xs : List Cell) : List Cell :=
  let classes := uniqueSorted xs
  xs.map (fun c => some (.num ((classes.indexOf c : ℕ) : ℚ)))

/-- Read `df[c]`, raising `KeyError` when the column is absent. -/
def requireCol (df : DataFrame) (c : String) : Except PyErr (List Cell) :=
  match getCol df c with
  | some xs => .ok xs
  | none => .error (.keyError c)

/-- Lines 44–48 of the source: encode `Genotype`, `Treatment` and
`Behavior` through the literal dictionaries and `class` through a freshly
fitted `LabelEncoder`, overwriting each column in place.  Reading a missing
column raises `KeyError`. -/
def encodeCats (df : DataFrame) : Except PyErr DataFrame := do
  let g ← requireCol df "Genotype"
  let df := setCol df "Genotype" (g.map (mapCell genotypeDict))
  let t ← requireCol df "Treatment"
  let df := setCol df "Treatment" (t.map (mapCell treatmentDict))
  let b ← requireCol df "Behavior"
  let df := setCol df "Behavior" (b.map (mapCell behaviorDict))
  let k ← requireCol df "class"
  let df := setCol df "class" (labelTransform k)
  return df

/-- Number of missing (`NaN`) entries of a column: `col.isna().sum()`. -/
def countMissing (xs : List Cell) : ℕ :=
  xs.countP (fun c => c.isNone)

/-- The drop decision of line 52: `null_report > threshold` for one column.
When the frame has no rows, `0/0` is `NaN` in pandas and `NaN > t` is
`False`, so a zero-row frame never drops columns. -/
def shouldDrop (nrows : ℕ) (t : ℚ) (xs : List Cell) : Bool :=
  decide (nrows ≠ 0) && decide ((countMissing xs : ℚ) / (nrows : ℚ) > t)

/-- The column names line 52 selects, in column order. -/
def dropColumnNames (t : ℚ) (df : DataFrame) : List String :=
  (df.cols.filter (fun p => shouldDrop df.nrows t p.2)).map Prod.fst

/-- `DataValidation.drop_missing_value_columns` (lines 31–64): encode the
categorical columns, compute per-column missing fractions, record the
columns exceeding the threshold under `report_key_name`, drop them, and
return `none` when no column is left.  Any exception is wrapped into a
`MiceException`. -/
def drop_missing_value_columns (threshold : ℚ) (df : DataFrame)
    (report_key_name : String) (r : Report) :
    Except MErr (Option DataFrame × Report) :=
  (do
    let enc ← encodeCats df
    let dropNames := dropColumnNames threshold enc
    let r' := upsertA r report_key_name (.strs dropNames)
    let df' := removeCols enc dropNames
    if df'.cols.isEmpty then
      return (none, r')
    else
      return (some df', r')).mapError
    (fun p => .ofPy p "drop_missing_value_columns")

/-- `DataValidation.is_required_columns_exists` (lines 69–89): collect the
base columns absent from the candidate; if any, record them and return
`False`, else return `True`. -/
def is_required_columns_exists (base_df current_df : DataFrame)
    (report_key_name : String) (r : Report) : Bool × Report :=
  let missing_columns :=
    (colNames base_df).filter (fun c => ¬ (colNames current_df).contains c)
  if missing_columns.length > 0 then
    (false, upsertA r report_key_name (.strs missing_columns))
  else
    (true, r)

/-- The loop of `data_drift` (lines 99–119): for each base column, fetch
the candidate column (`KeyError` if absent), run the two-sample test `ks`,
record `{pvalues, same_distribution}` with the verdict `pvalue > 0.05`,
and re-assign the accumulated drift dictionary to the report key on every
iteration (as the source does inside the loop body). -/
def driftLoop (ks : List Cell → List Cell → ℚ) (current_df : DataFrame)
    (key : String) :
    List (String × List Cell) → List (String × DriftRes) → Report →
    Except PyErr Report
  | [], _, r => .ok r
  | (c, bdata) :: rest, d, r =>
      match getCol current_df c with
      | none => .error (.keyError c)
      | some cdata =>
          let p := ks bdata cdata
          let d' := upsertA d c ⟨p, decide (p > 0.05)⟩
          driftLoop ks current_df key rest d' (upsertA r key (.driftMap d'))

/-- `DataValidation.data_drift` (lines 91–121): run the loop over the base
columns starting from an empty drift dictionary; wrap any exception. -/
def data_drift (ks : List Cell → List Cell → ℚ)
    (base_df current_df : DataFrame) (report_key_name : String)
    (r : Report) : Except MErr Report :=
  (driftLoop ks current_df report_key_name base_df.cols [] r).mapError
    (fun p => .ofPy p "data_drift")

/-- `TARGET_COLUMN` — Modelled from the spec: the constant lives in
`mice/config.py`, which is not under `src/`; the spec names it "a global
constant naming the designated target/label column (excluded from type
normalization)", which for this dataset is the `class` label column. -/
def TARGET_COLUMN : String := "class"

/-- Conversion of one cell to float — Modelled from the spec:
`utils.convert_columns_float` lives in `mice/utils.py`, which is not under
`src/`; the spec says it normalizes column types to floating point, and
its §7 taxonomy lists "type coercion failure" as a data error, so a
numeric value converts to itself, `NaN` stays `NaN`, and a string fails. -/
def convCell : Cell → Except PyErr Cell
  | none => .ok none
  | some (.num q) => .ok (some (.num q))
  | some (.str _) => .error .valueError

/-- `utils.convert_columns_float` — Modelled from the spec: converts every
column not in `exclude_columns` to float, cell by cell. -/
def convert_columns_float (df : DataFrame) (exclude_columns : List String) :
    Except PyErr DataFrame := do
  let cols ← df.cols.mapM (fun p =>
    if exclude_columns.contains p.1 then
      pure p
    else do
      let xs ← p.2.mapM convCell
      pure (p.1, xs))
  return { df with cols := cols }

/-- The orchestration passes the `Optional` result of
`drop_missing_value_columns` straight to `utils.convert_columns_float`;
on `None` that call dereferences a missing attribute
(`AttributeError`), modelled here explicitly. -/
def convertStep (odf : Option DataFrame) (exclude_columns : List String) :
    Except PyErr DataFrame :=
  match odf with
  | none => .error .attributeError
  | some df => convert_columns_float df exclude_columns

/-- `df.drop(columns=["MouseID"])` (line 126): raises `KeyError` when the
column is absent, otherwise removes it (not in place: a new frame). -/
def dropMouseID (df : DataFrame) : Except PyErr DataFrame :=
  if (colNames df).contains "MouseID" then
    .ok (removeCols df ["MouseID"])
  else
    .error (.keyError "MouseID")

/-- `df.replace({"na": np.NAN}, inplace=True)` (line 127): every cell equal
to the string `"na"` becomes `NaN`. -/
def replaceNa (df : DataFrame) : DataFrame :=
  { df with cols := df.cols.map (fun p =>
      (p.1, p.2.map (fun c => if c = some (.str "na") then none else c))) }

/-- Serialization of a rational for the report file. -/
def qStr (q : ℚ) : String :=
  toString q.num ++ "/" ++ toString q.den

/-- Serialization of one report value. -/
def serializeRVal : RVal → String
  | .strs l => String.intercalate "," l
  | .driftMap d =>
      String.intercalate ";" (d.map (fun p =>
        p.1 ++ ":" ++ qStr p.2.pvalues ++ ":" ++ toString p.2.same_distribution))

/-- `utils.write_yaml_file` content — Modelled from the spec:
`mice/utils.py` is not under `src/`; the spec says the accumulated report
mapping is persisted as a structured (hierarchical key-value) file.  The
exact syntax is irrelevant to the claims; what matters is that the bytes
are a deterministic function of the report mapping. -/
def serializeReport (r : Report) : String :=
  String.intercalate "\n" (r.map (fun p => p.1 ++ ": " ++ serializeRVal p.2))

/-- `DataValidationArtifact`: the single-field record returned on success. -/
structure DataValidationArtifact : Type where
  report_file_path : String
  deriving DecidableEq, Repr

/-- The inputs of one run of `initiate_data_validation`: the configuration
(threshold and report path), the result of each `pd.read_csv` (reading may
itself raise an I/O or parse error), and the black-box two-sample test. -/
structure Env : Type where
  threshold : ℚ
  report_file_path : String
  baseFile : Except PyErr DataFrame
  trainFile : Except PyErr DataFrame
  testFile : Except PyErr DataFrame
  ks : List Cell → List Cell → ℚ

/-- Errors inside the body of `initiate_data_validation` are either raised
directly by library calls (`PyErr`, wrapped once by the method's own
`except`) or already-wrapped `MiceException`s re-raised by the helper
methods (wrapped a second time). -/
abbrev BodyErr : Type := Sum PyErr MErr

/-- Lines 124–130 of `initiate_data_validation`: read the base file, drop
`MouseID`, replace the `"na"` sentinel by `NaN`, and run
`drop_missing_value_columns` on the base frame. -/
def basePhase (env : Env) : Except BodyErr (Option DataFrame × Report) := do
  let baseRaw ← env.baseFile.mapError Sum.inl
  let base1 ← (dropMouseID baseRaw).mapError Sum.inl
  let base2 := replaceNa base1
  (drop_missing_value_columns env.threshold base2
    "missing_values_within_base_dataset" []).mapError Sum.inr

/-- Lines 132–147: read train and test, drop their high-missing columns,
and type-normalize all three frames. -/
def prepPhase (env : Env) :
    Except BodyErr (DataFrame × DataFrame × DataFrame × Report) := do
  let (obase, r1) ← basePhase env
  let trainRaw ← env.trainFile.mapError Sum.inl
  let testRaw ← env.testFile.mapError Sum.inl
  let (otrain, r2) ← (drop_missing_value_columns env.threshold trainRaw
    "missing_values_within_train_dataset" r1).mapError Sum.inr
  let (otest, r3) ← (drop_missing_value_columns env.threshold testRaw
    "missing_values_within_test_dataset" r2).mapError Sum.inr
  let exclude_columns := [TARGET_COLUMN]
  let base ← (convertStep obase exclude_columns).mapError Sum.inl
  let train ← (convertStep otrain exclude_columns).mapError Sum.inl
  let test ← (convertStep otest exclude_columns).mapError Sum.inl
  return (base, train, test, r3)

/-- Lines 149–159: the two schema parity checks, each conditionally
followed by drift detection. -/
def parityDriftPhase (ks : List Cell → List Cell → ℚ)
    (base train test : DataFrame) (r : Report) : Except MErr Report := do
  let (train_status, r4) := is_required_columns_exists base train
    "missing_columns_within_train_dataset" r
  let (test_status, r5) := is_required_columns_exists base test
    "missing_columns_within_test_dataset" r4
  let r6 ← if train_status then
      data_drift ks base train "data_drift_within_train_dataset" r5
    else .ok r5
  if test_status then
    data_drift ks base test "data_drift_within_test_dataset" r6
  else .ok r6

/-- The whole `try` body of `initiate_data_validation` up to the final
report mapping (lines 124–159). -/
def initiateBody (env : Env) : Except BodyErr Report := do
  let (base, train, test, r3) ← prepPhase env
  (parityDriftPhase env.ks base train test r3).mapError Sum.inr

/-- `DataValidation.initiate_data_validation` (lines 122–170), together
with its externally visible file-system effect: the result (artifact or
singly-wrapped `MiceException`) and the list of file writes performed
(path and bytes).  The report is written (line 163) only after every
validation step has succeeded; on any failure the `except` block wraps
the error and nothing has been written. -/
def initiate_data_validation (env : Env) :
    Except MErr DataValidationArtifact × List (String × String) :=
  match initiateBody env with
  | .error (.inl p) => (.error (.ofPy p "initiate_data_validation"), [])
  | .error (.inr m) => (.error (.ofMice m "initiate_data_validation"), [])
  | .ok r =>
      (.ok { report_file_path := env.report_file_path },
       [(env.report_file_path, serializeReport r)])

/-- The final report of a fully successful run. -/
def finalReport (env : Env) : Option Report :=
  (initiateBody env).toOption

/-- A heap of dataframe objects, for reasoning about Python's aliasing:
the caller and the callee of `drop_missing_value_columns` share the same
`pd.DataFrame` object, named here by a `ℕ` reference. -/
def Heap : Type := ℕ → DataFrame

/-- Overwrite the object at reference `i`. -/
def writeH (h : Heap) (i : ℕ) (df : DataFrame) : Heap :=
  fun j => if j = i then df else h j

/-- `drop_missing_value_columns` replayed statement by statement on the
heap: each source line `df[...] = ...` (lines 44–48) and the
`inplace=True` drop (line 56) overwrites the caller's object `i`; the
function returns the heap, the returned reference (`some i`, the very same
object, or `none` for the Python `None` of line 60) and the report. -/
def drop_missing_value_columns_inplace (threshold : ℚ) (h : Heap) (i : ℕ)
    (report_key_name : String) (r : Report) :
    Except MErr (Heap × Option ℕ × Report) :=
  (do
    let g ← requireCol (h i) "Genotype"
    let h1 := writeH h i (setCol (h i) "Genotype" (g.map (mapCell genotypeDict)))
    let t ← requireCol (h1 i) "Treatment"
    let h2 := writeH h1 i (setCol (h1 i) "Treatment" (t.map (mapCell treatmentDict)))
    let b ← requireCol (h2 i) "Behavior"
    let h3 := writeH h2 i (setCol (h2 i) "Behavior" (b.map (mapCell behaviorDict)))
    let k ← requireCol (h3 i) "class"
    let h4 := writeH h3 i (setCol (h3 i) "class" (labelTransform k))
    let dropNames := dropColumnNames threshold (h4 i)
    let r' := upsertA r report_key_name (.strs dropNames)
    let h5 := writeH h4 i (removeCols (h4 i) dropNames)
    if (h5 i).cols.isEmpty then
      return (h5, none, r')
    else
      return (h5, some i, r')).mapError
    (fun p => .ofPy p "drop_missing_value_columns")

deriving instance DecidableEq for Except

/-- Whether an `Except` computation succeeded. -/
def isOkE {ε α : Type} : Except ε α → Bool
  | .ok _ => true
  | .error _ => false

/-- A small concrete frame exercising `drop_missing_value_columns`: four
rows, the four categorical columns, a column `X` that is 3/4 missing and a
column `Y` that is 1/4 missing. -/
def exDf : DataFrame :=
  ⟨4, [("Genotype", [some (.str "Control"), some (.str "Ts65Dn"),
          some (.str "Control"), some (.str "Control")]),
       ("Treatment", [some (.str "Saline"), some (.str "Memantine"),
          some (.str "Saline"), some (.str "Saline")]),
       ("Behavior", [some (.str "C/S"), some (.str "S/C"),
          some (.str "C/S"), some (.str "C/S")]),
       ("class", [some (.num 3), some (.num 7),
          some (.num 3), some (.num 7)]),
       ("X", [none, none, none, some (.num 1)]),
       ("Y", [some (.num 2), some (.num 3), some (.num 4), none])]⟩

/-- A concrete two-row frame with exactly the four categorical columns;
used as the train and test file content (and, after its identifier column
is dropped, as the base content). -/
def exBase1 : DataFrame :=
  ⟨2, [("Genotype", [some (.str "Control"), some (.str "Ts65Dn")]),
       ("Treatment", [some (.str "Saline"), some (.str "Memantine")]),
       ("Behavior", [some (.str "C/S"), some (.str "S/C")]),
       ("class", [some (.num 3), some (.num 7)])]⟩

/-- A concrete base file content (with the `MouseID` column). -/
def exBaseRaw : DataFrame :=
  ⟨2, [("MouseID", [some (.str "m1"), some (.str "m2")]),
       ("Genotype", [some (.str "Control"), some (.str "Ts65Dn")]),
       ("Treatment", [some (.str "Saline"), some (.str "Memantine")]),
       ("Behavior", [some (.str "C/S"), some (.str "S/C")]),
       ("class", [some (.num 3), some (.num 7)])]⟩

/-- The fully encoded form of `exBase1`. -/
def exEnc : DataFrame :=
  ⟨2, [("Genotype", [some (.num 0), some (.num 1)]),
       ("Treatment", [some (.num 0), some (.num 1)]),
       ("Behavior", [some (.num 0), some (.num 1)]),
       ("class", [some (.num 0), some (.num 1)])]⟩

/-- A concrete two-sample test stub: always returns the p-value 1/2. -/
def exKs : List Cell → List Cell → ℚ := fun _ _ => 1/2

/-- A concrete environment on which the whole validation succeeds. -/
def exEnv : Env :=
  ⟨1/5, "report.yaml", .ok exBaseRaw, .ok exBase1, .ok exBase1, exKs⟩

/-- A concrete heap holding `exDf` at every reference. -/
def exHeap : Heap := fun _ => exDf

/-- A concrete one-column base frame for the drift witness. -/
def exDriftBase : DataFrame :=
  ⟨2, [("A", [some (.num 1), some (.num 2)])]⟩

/-- A concrete one-column candidate frame for the drift witness. -/
def exDriftCur : DataFrame :=
  ⟨2, [("A", [some (.num 3), some (.num 4)])]⟩

/-- Keys of a report / dict, in insertion order. -/
def keysA {α : Type} (r : List (String × α)) : List String :=
  r.map Prod.fst

theorem lookupA_upsertA_self {α : Type} (r : List (String × α)) (k : String)
    (v : α) : lookupA (upsertA r k v) k = some v := by
  induction r with
  | nil => simp [upsertA, lookupA]
  | cons p rest ih =>
      obtain ⟨k₀, v₀⟩ := p
      by_cases h : k₀ = k
      · simp [upsertA, lookupA, h]
      · simp [upsertA, lookupA, h, ih]

theorem lookupA_upsertA_ne {α : Type} (r : List (String × α)) {k k' : String}
    (v : α) (h : k' ≠ k) : lookupA (upsertA r k v) k' = lookupA r k' := by
  induction r with
  | nil => simp [upsertA, lookupA, Ne.symm h]
  | cons p rest ih =>
      obtain ⟨k₀, v₀⟩ := p
      by_cases h0 : k₀ = k
      · subst h0
        simp only [upsertA, if_pos rfl]
        simp [lookupA, h, Ne.symm h]
      · by_cases h1 : k₀ = k'
        · subst h1
          simp only [upsertA, if_neg h0]
          simp [lookupA]
        · simp only [upsertA, if_neg h0]
          simp [lookupA, h1, ih]

theorem lookupA_eq_none_of_not_mem {α : Type} {r : List (String × α)}
    {k : String} (h : k ∉ keysA r) : lookupA r k = none := by
  induction r with
  | nil => simp [lookupA]
  | cons p rest ih =>
      obtain ⟨k₀, v₀⟩ := p
      simp only [keysA, List.map_cons, List.mem_cons] at h
      push_neg at h
      have h1 : ¬ k₀ = k := fun hh => h.1 hh.symm
      simp [lookupA, h1, ih (by simpa [keysA] using h.2)]

theorem keysA_upsertA_subset {α : Type} (r : List (String × α)) (k : String)
    (v : α) : keysA (upsertA r k v) ⊆ k :: keysA r := by
  induction r with
  | nil => simp [upsertA, keysA]
  | cons p rest ih =>
      obtain ⟨k₀, v₀⟩ := p
      by_cases h0 : k₀ = k
      · subst h0
        simp only [upsertA, if_pos rfl]
        intro x hx
        simpa [keysA] using hx
      · simp only [upsertA, if_neg h0]
        intro x hx
        simp only [keysA, List.map_cons, List.mem_cons] at hx ⊢
        rcases hx with hx | hx
        · exact Or.inr (Or.inl hx)
        · rcases List.mem_cons.1 (ih hx) with hh | hh
          · exact Or.inl hh
          · exact Or.inr (Or.inr (by simpa [keysA] using hh))

theorem map_fst_filter_key (l : List (String × List Cell)) (q : String → Bool) :
    (l.filter (fun p => q p.1)).map Prod.fst = (l.map Prod.fst).filter q := by
  induction l with
  | nil => rfl
  | cons p rest ih =>
      by_cases h : q p.1
      · simp [List.filter_cons, h, ih]
      · simp [List.filter_cons, h, ih]

theorem find?_key_map_set {α : Type} (l : List (String × α)) (c : String)
    (xs : α) (h : l.any (fun p => p.1 = c) = true) :
    (l.map (fun p => if p.1 = c then (c, xs) else p)).find?
      (fun p => p.1 = c) = some (c, xs) := by
  induction l with
  | nil => simp at h
  | cons p rest ih =>
      by_cases hpc : p.1 = c
      · simp only [List.map_cons, if_pos hpc]
        rw [List.find?_cons_of_pos _ (by simp)]
      · simp only [List.map_cons, if_neg hpc]
        rw [List.find?_cons_of_neg _ (by simp [hpc])]
        refine ih ?_
        rcases List.any_eq_true.1 h with ⟨q, hq, hq2⟩
        rcases List.mem_cons.1 hq with hq' | hq'
        · exact absurd (by simpa using hq2) (hq' ▸ hpc)
        · exact List.any_eq_true.2 ⟨q, hq', hq2⟩

theorem find?_key_map_set_ne {α : Type} (l : List (String × α))
    {c c' : String} (h : c' ≠ c) (xs : α) :
    (l.map (fun p => if p.1 = c then (c, xs) else p)).find?
      (fun p => p.1 = c') = l.find? (fun p => p.1 = c') := by
  induction l with
  | nil => rfl
  | cons p rest ih =>
      by_cases hpc : p.1 = c
      · simp only [List.map_cons, if_pos hpc]
        rw [List.find?_cons_of_neg _ (by simp [Ne.symm h]),
          List.find?_cons_of_neg _ (by simp [hpc, Ne.symm h]), ih]
      · simp only [List.map_cons, if_neg hpc]
        by_cases hpc' : p.1 = c'
        · rw [List.find?_cons_of_pos _ (by simp [hpc']),
            List.find?_cons_of_pos _ (by simp [hpc'])]
        · rw [List.find?_cons_of_neg _ (by simp [hpc']),
            List.find?_cons_of_neg _ (by simp [hpc']), ih]

theorem getCol_isSome_iff (df : DataFrame) (c : String) :
    (getCol df c).isSome ↔ c ∈ colNames df := by
  unfold getCol colNames
  induction df.cols with
  | nil => simp
  | cons p rest ih =>
      by_cases h : p.1 = c
      · rw [List.find?_cons_of_pos _ (by simp [h])]
        simp [h]
      · rw [List.find?_cons_of_neg _ (by simp [h])]
        simp only [List.map_cons, List.mem_cons]
        rw [ih]
        constructor
        · exact Or.inr
        · rintro (hh | hh)
          · exact absurd hh.symm h
          · exact hh

theorem getCol_eq_none_iff (df : DataFrame) (c : String) :
    getCol df c = none ↔ c ∉ colNames df := by
  rw [← getCol_isSome_iff]
  cases getCol df c <;> simp

theorem any_key_of_mem {df : DataFrame} {c : String} (h : c ∈ colNames df) :
    df.cols.any (fun p => p.1 = c) = true := by
  rw [List.any_eq_true]
  obtain ⟨p, hp, hfst⟩ := List.mem_map.1 h
  exact ⟨p, hp, by simp [hfst]⟩

theorem nrows_setCol (df : DataFrame) (c : String) (xs : List Cell) :
    (setCol df c xs).nrows = df.nrows := rfl

theorem nrows_removeCols (df : DataFrame) (names : List String) :
    (removeCols df names).nrows = df.nrows := rfl

theorem colNames_setCol_of_mem {df : DataFrame} {c : String}
    (h : c ∈ colNames df) (xs : List Cell) :
    colNames (setCol df c xs) = colNames df := by
  unfold setCol colNames
  rw [if_pos (any_key_of_mem h)]
  simp only [List.map_map]
  apply List.map_congr_left
  intro p _
  by_cases hpc : p.1 = c <;> simp [hpc]

theorem getCol_setCol_self {df : DataFrame} {c : String}
    (h : c ∈ colNames df) (xs : List Cell) :
    getCol (setCol df c xs) c = some xs := by
  unfold setCol getCol
  rw [if_pos (any_key_of_mem h), find?_key_map_set _ _ _ (any_key_of_mem h)]
  rfl

theorem getCol_setCol_ne (df : DataFrame) {c c' : String} (h : c' ≠ c)
    (xs : List Cell) : getCol (setCol df c xs) c' = getCol df c' := by
  unfold setCol getCol
  by_cases hany : df.cols.any (fun p => p.1 = c) = true
  · rw [if_pos hany, find?_key_map_set_ne _ h]
  · rw [if_neg hany, List.find?_append]
    have : List.find? (fun p => p.1 = c') [(c, xs)] = none := by
      simp [List.find?, Ne.symm h]
    rw [this]
    simp

theorem encodeCats_eq (df : DataFrame) (g t b k : List Cell)
    (hg : getCol df "Genotype" = some g)
    (ht : getCol df "Treatment" = some t)
    (hb : getCol df "Behavior" = some b)
    (hk : getCol df "class" = some k) :
    encodeCats df = .ok
      (setCol (setCol (setCol (setCol df
        "Genotype" (g.map (mapCell genotypeDict)))
        "Treatment" (t.map (mapCell treatmentDict)))
        "Behavior" (b.map (mapCell behaviorDict)))
        "class" (labelTransform k)) := by
  have ht1 : getCol (setCol df "Genotype" (g.map (mapCell genotypeDict)))
      "Treatment" = some t := by
    rw [getCol_setCol_ne _ (by decide)]; exact ht
  have hb2 : getCol (setCol (setCol df
      "Genotype" (g.map (mapCell genotypeDict)))
      "Treatment" (t.map (mapCell treatmentDict))) "Behavior" = some b := by
    rw [getCol_setCol_ne _ (by decide), getCol_setCol_ne _ (by decide)]
    exact hb
  have hk3 : getCol (setCol (setCol (setCol df
      "Genotype" (g.map (mapCell genotypeDict)))
      "Treatment" (t.map (mapCell treatmentDict)))
      "Behavior" (b.map (mapCell behaviorDict))) "class" = some k := by
    rw [getCol_setCol_ne _ (by decide), getCol_setCol_ne _ (by decide),
      getCol_setCol_ne _ (by decide)]
    exact hk
  simp [encodeCats, requireCol, Bind.bind, Except.bind, Functor.map, Except.map, Pure.pure, Except.pure, hg, ht1, hb2, hk3]

theorem encodeCats_ok_names {df enc : DataFrame}
    (h : encodeCats df = .ok enc) :
    colNames enc = colNames df ∧ enc.nrows = df.nrows ∧
      (∀ c, c ∉ (["Genotype", "Treatment", "Behavior", "class"] : List String) →
        getCol enc c = getCol df c) := by
  rcases hg0 : getCol df "Genotype" with _ | g
  · simp [encodeCats, requireCol, Bind.bind, Except.bind, Functor.map, Except.map, Pure.pure, Except.pure, hg0] at h
  rcases ht0 : getCol (setCol df "Genotype" (g.map (mapCell genotypeDict)))
      "Treatment" with _ | t
  · simp [encodeCats, requireCol, Bind.bind, Except.bind, Functor.map, Except.map, Pure.pure, Except.pure, hg0, ht0] at h
  rcases hb0 : getCol (setCol (setCol df
      "Genotype" (g.map (mapCell genotypeDict)))
      "Treatment" (t.map (mapCell treatmentDict))) "Behavior" with _ | b
  · simp [encodeCats, requireCol, Bind.bind, Except.bind, Functor.map, Except.map, Pure.pure, Except.pure, hg0, ht0, hb0] at h
  rcases hk0 : getCol (setCol (setCol (setCol df
      "Genotype" (g.map (mapCell genotypeDict)))
      "Treatment" (t.map (mapCell treatmentDict)))
      "Behavior" (b.map (mapCell behaviorDict))) "class" with _ | k
  · simp [encodeCats, requireCol, Bind.bind, Except.bind, Functor.map, Except.map, Pure.pure, Except.pure, hg0, ht0, hb0, hk0] at h
  have henc : enc = setCol (setCol (setCol (setCol df
      "Genotype" (g.map (mapCell genotypeDict)))
      "Treatment" (t.map (mapCell treatmentDict)))
      "Behavior" (b.map (mapCell behaviorDict)))
      "class" (labelTransform k) := by
    have := h
    simp [encodeCats, requireCol, Bind.bind, Except.bind, Functor.map, Except.map, Pure.pure, Except.pure, hg0, ht0, hb0, hk0] at this
    exact this.symm
  have m1 : "Genotype" ∈ colNames df :=
    (getCol_isSome_iff _ _).1 (by simp [hg0])
  have n1 : colNames (setCol df "Genotype" (g.map (mapCell genotypeDict))) =
      colNames df := colNames_setCol_of_mem m1 _
  have m2 : "Treatment" ∈ colNames (setCol df
      "Genotype" (g.map (mapCell genotypeDict))) :=
    (getCol_isSome_iff _ _).1 (by simp [ht0])
  have n2 : colNames (setCol (setCol df
      "Genotype" (g.map (mapCell genotypeDict)))
      "Treatment" (t.map (mapCell treatmentDict))) = colNames df := by
    rw [colNames_setCol_of_mem m2 _, n1]
  have m3 : "Behavior" ∈ colNames (setCol (setCol df
      "Genotype" (g.map (mapCell genotypeDict)))
      "Treatment" (t.map (mapCell treatmentDict))) :=
    (getCol_isSome_iff _ _).1 (by simp [hb0])
  have n3 : colNames (setCol (setCol (setCol df
      "Genotype" (g.map (mapCell genotypeDict)))
      "Treatment" (t.map (mapCell treatmentDict)))
      "Behavior" (b.map (mapCell behaviorDict))) = colNames df := by
    rw [colNames_setCol_of_mem m3 _, n2]
  have m4 : "class" ∈ colNames (setCol (setCol (setCol df
      "Genotype" (g.map (mapCell genotypeDict)))
      "Treatment" (t.map (mapCell treatmentDict)))
      "Behavior" (b.map (mapCell behaviorDict))) :=
    (getCol_isSome_iff _ _).1 (by simp [hk0])
  refine ⟨?_, ?_, ?_⟩
  · rw [henc, colNames_setCol_of_mem m4 _, n3]
  · rw [henc]; rfl
  · intro c hc
    simp only [List.mem_cons, List.not_mem_nil, or_false, not_or] at hc
    obtain ⟨hc1, hc2, hc3, hc4⟩ := hc
    rw [henc, getCol_setCol_ne _ hc4, getCol_setCol_ne _ hc3,
      getCol_setCol_ne _ hc2, getCol_setCol_ne _ hc1]

theorem encodeCats_err_of_no_genotype {df : DataFrame}
    (h : "Genotype" ∉ colNames df) :
    encodeCats df = .error (.keyError "Genotype") := by
  have : getCol df "Genotype" = none := (getCol_eq_none_iff _ _).2 h
  simp [encodeCats, requireCol, Bind.bind, Except.bind, Functor.map, Except.map, Pure.pure, Except.pure, this]

theorem encodeCats_isOk_iff (df : DataFrame) :
    (∃ enc, encodeCats df = .ok enc) ↔
      ("Genotype" ∈ colNames df ∧ "Treatment" ∈ colNames df ∧
       "Behavior" ∈ colNames df ∧ "class" ∈ colNames df) := by
  constructor
  · rintro ⟨enc, h⟩
    rcases hg0 : getCol df "Genotype" with _ | g
    · simp [encodeCats, requireCol, Bind.bind, Except.bind, Functor.map, Except.map, Pure.pure, Except.pure, hg0] at h
    rcases ht0 : getCol (setCol df "Genotype" (g.map (mapCell genotypeDict)))
        "Treatment" with _ | t
    · simp [encodeCats, requireCol, Bind.bind, Except.bind, Functor.map, Except.map, Pure.pure, Except.pure, hg0, ht0] at h
    rcases hb0 : getCol (setCol (setCol df
        "Genotype" (g.map (mapCell genotypeDict)))
        "Treatment" (t.map (mapCell treatmentDict))) "Behavior" with _ | b
    · simp [encodeCats, requireCol, Bind.bind, Except.bind, Functor.map, Except.map, Pure.pure, Except.pure, hg0, ht0, hb0] at h
    rcases hk0 : getCol (setCol (setCol (setCol df
        "Genotype" (g.map (mapCell genotypeDict)))
        "Treatment" (t.map (mapCell treatmentDict)))
        "Behavior" (b.map (mapCell behaviorDict))) "class" with _ | k
    · simp [encodeCats, requireCol, Bind.bind, Except.bind, Functor.map, Except.map, Pure.pure, Except.pure, hg0, ht0, hb0, hk0] at h
    have m1 : "Genotype" ∈ colNames df :=
      (getCol_isSome_iff _ _).1 (by simp [hg0])
    have n1 : colNames (setCol df "Genotype" (g.map (mapCell genotypeDict))) =
        colNames df := colNames_setCol_of_mem m1 _
    have m2 : "Treatment" ∈ colNames df := by
      rw [← n1]; exact (getCol_isSome_iff _ _).1 (by simp [ht0])
    have m3 : "Behavior" ∈ colNames df := by
      have := (getCol_isSome_iff _ _).1 (show (getCol (setCol (setCol df
        "Genotype" (g.map (mapCell genotypeDict)))
        "Treatment" (t.map (mapCell treatmentDict))) "Behavior").isSome by
          simp [hb0])
      rwa [colNames_setCol_of_mem (by rw [n1]; exact m2) _, n1] at this
    have m4 : "class" ∈ colNames df := by
      have hmem := (getCol_isSome_iff _ _).1 (show (getCol (setCol (setCol
        (setCol df "Genotype" (g.map (mapCell genotypeDict)))
        "Treatment" (t.map (mapCell treatmentDict)))
        "Behavior" (b.map (mapCell behaviorDict))) "class").isSome by
          simp [hk0])
      rwa [colNames_setCol_of_mem (by
          rw [colNames_setCol_of_mem (by rw [n1]; exact m2) _, n1]
          exact m3) _,
        colNames_setCol_of_mem (by rw [n1]; exact m2) _, n1] at hmem
    exact ⟨m1, m2, m3, m4⟩
  · rintro ⟨m1, m2, m3, m4⟩
    obtain ⟨g, hg⟩ := Option.isSome_iff_exists.1 ((getCol_isSome_iff _ _).2 m1)
    have n1 : colNames (setCol df "Genotype" (g.map (mapCell genotypeDict))) =
        colNames df := colNames_setCol_of_mem m1 _
    obtain ⟨t, ht⟩ := Option.isSome_iff_exists.1 ((getCol_isSome_iff _ _).2
      (show "Treatment" ∈ colNames df from m2))
    have ht' : getCol df "Treatment" = some t := ht
    obtain ⟨b, hb⟩ := Option.isSome_iff_exists.1 ((getCol_isSome_iff _ _).2 m3)
    obtain ⟨k, hk⟩ := Option.isSome_iff_exists.1 ((getCol_isSome_iff _ _).2 m4)
    exact ⟨_, encodeCats_eq df g t b k hg ht' hb hk⟩

theorem eq_snd_of_nodup_keys {l : List (String × List Cell)}
    (hnd : (l.map Prod.fst).Nodup) {c : String} {xs ys : List Cell}
    (h1 : (c, xs) ∈ l) (h2 : (c, ys) ∈ l) : xs = ys := by
  induction l with
  | nil => simp at h1
  | cons p rest ih =>
      simp only [List.map_cons, List.nodup_cons] at hnd
      rcases List.mem_cons.1 h1 with e1 | e1 <;>
        rcases List.mem_cons.1 h2 with e2 | e2
      · exact congrArg Prod.snd (e1.trans e2.symm)
      · exfalso
        apply hnd.1
        rw [← e1]
        exact List.mem_map.2 ⟨(c, ys), e2, rfl⟩
      · exfalso
        apply hnd.1
        rw [← e2]
        exact List.mem_map.2 ⟨(c, xs), e1, rfl⟩
      · exact ih hnd.2 e1 e2

theorem mem_dropColumnNames {df : DataFrame} {t : ℚ} {c : String}
    {xs : List Cell} (hnd : (colNames df).Nodup) (hmem : (c, xs) ∈ df.cols) :
    c ∈ dropColumnNames t df ↔ shouldDrop df.nrows t xs = true := by
  unfold dropColumnNames
  constructor
  · intro h
    obtain ⟨p, hp, hfst⟩ := List.mem_map.1 h
    obtain ⟨c₀, ys⟩ := p
    obtain ⟨hpl, hpd⟩ := List.mem_filter.1 hp
    have hc : c₀ = c := hfst
    subst hc
    have hxy : ys = xs := eq_snd_of_nodup_keys hnd hpl hmem
    rw [← hxy]
    exact hpd
  · intro h
    exact List.mem_map.2 ⟨(c, xs), List.mem_filter.2 ⟨hmem, h⟩, rfl⟩

theorem colNames_removeCols (df : DataFrame) (names : List String) :
    colNames (removeCols df names) =
      (colNames df).filter (fun c => ¬ names.contains c) := by
  unfold colNames removeCols
  exact map_fst_filter_key df.cols (fun c => decide (¬ names.contains c))

theorem drop_missing_value_columns_ok_inv {t : ℚ} {df : DataFrame}
    {key : String} {r : Report} {res : Option DataFrame} {r' : Report}
    (h : drop_missing_value_columns t df key r = .ok (res, r')) :
    ∃ enc, encodeCats df = .ok enc ∧
      r' = upsertA r key (.strs (dropColumnNames t enc)) ∧
      res = (if (removeCols enc (dropColumnNames t enc)).cols.isEmpty then
        none else some (removeCols enc (dropColumnNames t enc))) := by
  rcases henc : encodeCats df with p | enc
  · simp [drop_missing_value_columns, henc, Except.mapError, Bind.bind, Except.bind] at h
  · refine ⟨enc, rfl, ?_⟩
    by_cases hemp : (removeCols enc (dropColumnNames t enc)).cols.isEmpty
    · simp [drop_missing_value_columns, henc, Except.mapError, Bind.bind, Except.bind,
        Pure.pure, Except.pure, hemp] at h
      exact ⟨h.2.symm, by simp [hemp, h.1]⟩
    · simp [drop_missing_value_columns, henc, Except.mapError, Bind.bind, Except.bind,
        Pure.pure, Except.pure, hemp] at h
      exact ⟨h.2.symm, by simp [hemp, ← h.1]⟩

theorem drop_missing_value_columns_err_inv {t : ℚ} {df : DataFrame}
    {key : String} {r : Report} {e : MErr}
    (h : drop_missing_value_columns t df key r = .error e) :
    ∃ p, encodeCats df = .error p ∧
      e = .ofPy p "drop_missing_value_columns" := by
  rcases henc : encodeCats df with p | enc
  · refine ⟨p, rfl, ?_⟩
    simp [drop_missing_value_columns, henc, Except.mapError, Bind.bind, Except.bind] at h
    exact h.symm
  · by_cases hemp : (removeCols enc (dropColumnNames t enc)).cols.isEmpty <;>
      simp [drop_missing_value_columns, henc, Except.mapError, Bind.bind, Except.bind,
        Pure.pure, Except.pure, hemp] at h

/-- **C1.**  For every dataframe `D` and configured threshold `t`,
`drop_missing_value_columns(D, key)` removes exactly those columns whose
fraction of missing entries strictly exceeds `t` — the fraction being
measured on `D` as it stands at the drop computation, i.e. after the
in-place categorical encoding of lines 44–48 (for every column other than
the four encoded ones this is the fraction in the input `D` itself) — and
never removes any other column; the dropped column names are recorded in
the report under `key`. -/
theorem drop_missing_value_columns_exact (t : ℚ) (df : DataFrame)
    (key : String) (r : Report) (res : Option DataFrame) (r' : Report)
    (hnd : (colNames df).Nodup)
    (h : drop_missing_value_columns t df key r = .ok (res, r')) :
    ∃ enc, encodeCats df = .ok enc ∧
      lookupA r' key = some (.strs (dropColumnNames t enc)) ∧
      (∀ c xs, (c, xs) ∈ enc.cols →
        (c ∈ dropColumnNames t enc ↔
          shouldDrop enc.nrows t xs = true)) ∧
      (∀ df2, res = some df2 →
        colNames df2 = (colNames enc).filter
          (fun c => ¬ (dropColumnNames t enc).contains c)) ∧
      (res = none →
        (colNames enc).filter
          (fun c => ¬ (dropColumnNames t enc).contains c) = []) ∧
      (∀ c, c ∉ (["Genotype", "Treatment", "Behavior", "class"] :
          List String) → getCol enc c = getCol df c) := by
  obtain ⟨enc, henc, hr', hres⟩ := drop_missing_value_columns_ok_inv h
  obtain ⟨hnames, _, hother⟩ := encodeCats_ok_names henc
  have hnd' : (colNames enc).Nodup := hnames ▸ hnd
  refine ⟨enc, henc, ?_, ?_, ?_, ?_, hother⟩
  · rw [hr']; exact lookupA_upsertA_self _ _ _
  · intro c xs hmem
    exact mem_dropColumnNames hnd' hmem
  · intro df2 hdf2
    rw [hdf2] at hres
    by_cases hemp : (removeCols enc (dropColumnNames t enc)).cols.isEmpty
    · simp [hemp] at hres
    · simp [hemp] at hres
      rw [hres, colNames_removeCols]
  · intro hnone
    rw [hnone] at hres
    by_cases hemp : (removeCols enc (dropColumnNames t enc)).cols.isEmpty
    · have : (removeCols enc (dropColumnNames t enc)).cols = [] :=
        List.isEmpty_iff.1 hemp
      rw [← colNames_removeCols]
      unfold colNames
      rw [this]
      rfl
    · simp [hemp] at hres

/-- **C8.**  If at least one column remains after
`drop_missing_value_columns(D, key)`, the returned dataframe has exactly
the same row count as `D` (rows are never dropped, and the kept columns'
data is untouched); if no column remains, the designated empty-result
signal `None` is returned. -/
theorem drop_missing_value_columns_frame (t : ℚ) (df : DataFrame)
    (key : String) (r : Report) (res : Option DataFrame) (r' : Report)
    (h : drop_missing_value_columns t df key r = .ok (res, r')) :
    ∃ enc, encodeCats df = .ok enc ∧
      (∀ df2, res = some df2 → df2.nrows = df.nrows ∧
        ∀ c xs, (c, xs) ∈ df2.cols → (c, xs) ∈ enc.cols) ∧
      (res = none ↔
        (removeCols enc (dropColumnNames t enc)).cols.isEmpty = true) := by
  obtain ⟨enc, henc, _, hres⟩ := drop_missing_value_columns_ok_inv h
  obtain ⟨_, hrows, _⟩ := encodeCats_ok_names henc
  refine ⟨enc, henc, ?_, ?_⟩
  · intro df2 hdf2
    rw [hdf2] at hres
    by_cases hemp : (removeCols enc (dropColumnNames t enc)).cols.isEmpty
    · simp [hemp] at hres
    · simp [hemp] at hres
      constructor
      · rw [hres, nrows_removeCols, hrows]
      · intro c xs hmem
        rw [hres] at hmem
        exact (List.mem_filter.1 hmem).1
  · by_cases hemp : (removeCols enc (dropColumnNames t enc)).cols.isEmpty <;>
      simp [hemp] at hres ⊢ <;> simp [hres]

theorem mem_missing_filter (base cur : DataFrame) (c : String) :
    c ∈ (colNames base).filter (fun c => ¬ (colNames cur).contains c) ↔
      (c ∈ colNames base ∧ c ∉ colNames cur) := by
  rw [List.mem_filter]
  simp [List.elem_iff]

/-- **C2.**  `is_required_columns_exists(base, candidate, key)` returns
`True` iff every column name of `base` appears among `candidate`'s column
names, and when it returns `False` the list recorded under `key` is
exactly the set of base column names absent from `candidate` (and on
`True` the report is untouched). -/
theorem is_required_columns_exists_correct (base cur : DataFrame)
    (key : String) (r : Report) :
    ((is_required_columns_exists base cur key r).1 = true ↔
      ∀ c ∈ colNames base, c ∈ colNames cur) ∧
    ((is_required_columns_exists base cur key r).1 = false →
      ∃ miss, lookupA (is_required_columns_exists base cur key r).2 key =
          some (.strs miss) ∧
        ∀ c, c ∈ miss ↔ (c ∈ colNames base ∧ c ∉ colNames cur)) ∧
    ((is_required_columns_exists base cur key r).1 = true →
      (is_required_columns_exists base cur key r).2 = r) := by
  unfold is_required_columns_exists
  by_cases hm :
      ((colNames base).filter (fun c => ¬ (colNames cur).contains c)).length > 0
  · rw [if_pos hm]
    refine ⟨⟨fun h => (Bool.false_ne_true h).elim, fun hall => ?_⟩, ?_, ?_⟩
    · exfalso
      obtain ⟨c, hc⟩ := List.exists_mem_of_length_pos hm
      obtain ⟨h1, h2⟩ := (mem_missing_filter base cur c).1 hc
      exact h2 (hall c h1)
    · intro _
      exact ⟨_, lookupA_upsertA_self _ _ _, fun c => mem_missing_filter base cur c⟩
    · intro h
      cases h
  · rw [if_neg hm]
    have hnil : (colNames base).filter (fun c => ¬ (colNames cur).contains c)
        = [] :=
      List.eq_nil_of_length_eq_zero (Nat.eq_zero_of_not_pos hm)
    refine ⟨?_, ?_, ?_⟩
    · simp only [true_iff]
      intro c hc
      by_contra habs
      have : c ∈ (colNames base).filter (fun c => ¬ (colNames cur).contains c) :=
        (mem_missing_filter base cur c).2 ⟨hc, habs⟩
      rw [hnil] at this
      simp at this
    · intro h
      cases h
    · intro _
      rfl

theorem driftLoop_final (ks : List Cell → List Cell → ℚ) (cur : DataFrame)
    (key : String) : ∀ (cols : List (String × List Cell))
    (d : List (String × DriftRes)) (r r' : Report),
    driftLoop ks cur key cols d r = .ok r' →
    (cols = [] ∧ r' = r) ∨
    ∃ dfi, lookupA r' key = some (.driftMap dfi) ∧
      ∀ n, n ∉ cols.map Prod.fst → lookupA dfi n = lookupA d n := by
  intro cols
  induction cols with
  | nil =>
      intro d r r' h
      simp [driftLoop] at h
      exact Or.inl ⟨rfl, h.symm⟩
  | cons p rest ih =>
      intro d r r' h
      obtain ⟨c₀, b₀⟩ := p
      rcases hc : getCol cur c₀ with _ | cdata
      · simp [driftLoop, hc] at h
      · rw [driftLoop, hc] at h
        rcases ih _ _ _ h with ⟨hrest, hr'⟩ | ⟨dfi, hl, hpres⟩
        · refine Or.inr ⟨upsertA d c₀ ⟨ks b₀ cdata,
            decide (ks b₀ cdata > 0.05)⟩, ?_, ?_⟩
          · rw [hr']
            exact lookupA_upsertA_self _ _ _
          · intro n hn
            simp only [List.map_cons, List.mem_cons, not_or] at hn
            exact lookupA_upsertA_ne _ _ hn.1
        · refine Or.inr ⟨dfi, hl, ?_⟩
          intro n hn
          simp only [List.map_cons, List.mem_cons, not_or] at hn
          rw [hpres n hn.2]
          exact lookupA_upsertA_ne _ _ hn.1

theorem driftLoop_other_key (ks : List Cell → List Cell → ℚ)
    (cur : DataFrame) (key : String) : ∀ (cols : List (String × List Cell))
    (d : List (String × DriftRes)) (r r' : Report) (k' : String),
    k' ≠ key → driftLoop ks cur key cols d r = .ok r' →
    lookupA r' k' = lookupA r k' := by
  intro cols
  induction cols with
  | nil =>
      intro d r r' k' hk h
      simp [driftLoop] at h
      rw [h]
  | cons p rest ih =>
      intro d r r' k' hk h
      obtain ⟨c₀, b₀⟩ := p
      rcases hc : getCol cur c₀ with _ | cdata
      · simp [driftLoop, hc] at h
      · rw [driftLoop, hc] at h
        rw [ih _ _ _ _ hk h]
        exact lookupA_upsertA_ne _ _ hk

theorem driftLoop_entry (ks : List Cell → List Cell → ℚ) (cur : DataFrame)
    (key : String) : ∀ (cols : List (String × List Cell))
    (d : List (String × DriftRes)) (r r' : Report),
    (cols.map Prod.fst).Nodup →
    driftLoop ks cur key cols d r = .ok r' →
    ∀ c bdata, (c, bdata) ∈ cols →
      ∃ dfi cdata, getCol cur c = some cdata ∧
        lookupA r' key = some (.driftMap dfi) ∧
        lookupA dfi c = some ⟨ks bdata cdata,
          decide (ks bdata cdata > 0.05)⟩ := by
  intro cols
  induction cols with
  | nil =>
      intro d r r' _ _ c bdata hmem
      simp at hmem
  | cons p rest ih =>
      intro d r r' hnd h c bdata hmem
      obtain ⟨c₀, b₀⟩ := p
      simp only [List.map_cons, List.nodup_cons] at hnd
      rcases hc : getCol cur c₀ with _ | cdata
      · simp [driftLoop, hc] at h
      · rw [driftLoop, hc] at h
        rcases List.mem_cons.1 hmem with e | e
        · obtain ⟨ec, eb⟩ := Prod.mk.injEq .. ▸ e
          subst ec
          subst eb
          rcases driftLoop_final ks cur key _ _ _ _ h with
            ⟨hrest, hr'⟩ | ⟨dfi, hl, hpres⟩
          · exact ⟨upsertA d c ⟨ks bdata cdata,
              decide (ks bdata cdata > 0.05)⟩, cdata, hc,
              by rw [hr']; exact lookupA_upsertA_self _ _ _,
              lookupA_upsertA_self _ _ _⟩
          · exact ⟨dfi, cdata, hc, hl,
              by rw [hpres c hnd.1]; exact lookupA_upsertA_self _ _ _⟩
        · exact ih _ _ _ hnd.2 h c bdata e

/-- **C3.**  `data_drift(base, candidate, key)` records, for every column
of `base`, a result whose p-value lies in `[0,1]` (granted the two-sample
test returns a probability) and whose `same_distribution` verdict is
`True` iff the p-value is strictly greater than `0.05`, all aggregated
under the single report key. -/
theorem data_drift_records (ks : List Cell → List Cell → ℚ)
    (base cur : DataFrame) (key : String) (r r' : Report)
    (hks : ∀ a b, 0 ≤ ks a b ∧ ks a b ≤ 1)
    (hnd : (colNames base).Nodup)
    (h : data_drift ks base cur key r = .ok r') :
    ∀ c bdata, (c, bdata) ∈ base.cols →
      ∃ dfi entry, lookupA r' key = some (.driftMap dfi) ∧
        lookupA dfi c = some entry ∧
        0 ≤ entry.pvalues ∧ entry.pvalues ≤ 1 ∧
        (entry.same_distribution = true ↔ entry.pvalues > 0.05) := by
  intro c bdata hmem
  have hloop : driftLoop ks cur key base.cols [] r = .ok r' := by
    rcases hl : driftLoop ks cur key base.cols [] r with p | r''
    · rw [data_drift, hl] at h
      simp [Except.mapError] at h
    · rw [data_drift, hl] at h
      simp [Except.mapError] at h
      rw [h]
  obtain ⟨dfi, cdata, hget, hlook, hentry⟩ :=
    driftLoop_entry ks cur key base.cols [] r r' hnd hloop c bdata hmem
  refine ⟨dfi, _, hlook, hentry, (hks bdata cdata).1, (hks bdata cdata).2, ?_⟩
  simp only [decide_eq_true_eq]

theorem drop_missing_value_columns_eq {t : ℚ} {df enc : DataFrame}
    {key : String} {r : Report} (henc : encodeCats df = .ok enc) :
    drop_missing_value_columns t df key r = .ok
      ((if (removeCols enc (dropColumnNames t enc)).cols.isEmpty then none
        else some (removeCols enc (dropColumnNames t enc))),
       upsertA r key (.strs (dropColumnNames t enc))) := by
  by_cases hemp : (removeCols enc (dropColumnNames t enc)).cols.isEmpty <;>
    simp [drop_missing_value_columns, henc, Except.mapError, Bind.bind,
      Except.bind, Pure.pure, Except.pure, hemp]

theorem drop_missing_value_columns_err {t : ℚ} {df : DataFrame}
    {key : String} {r : Report} {p : PyErr}
    (hp : encodeCats df = .error p) :
    drop_missing_value_columns t df key r =
      .error (.ofPy p "drop_missing_value_columns") := by
  simp [drop_missing_value_columns, hp, Except.mapError, Bind.bind,
    Except.bind]

/-- **C5.**  The caller of `initiate_data_validation` observes either a
single wrapped domain error (a `MiceException` whose context is the
`initiate_data_validation` boundary) with no file written at all — no
partial report — or full success, in which case exactly the complete
serialized report has been written at the configured path. -/
theorem initiate_single_error_or_full_report (env : Env) :
    (∃ e, initiate_data_validation env = (.error e, []) ∧
      ((∃ p, e = .ofPy p "initiate_data_validation") ∨
       (∃ m, e = .ofMice m "initiate_data_validation"))) ∨
    (∃ R, initiateBody env = .ok R ∧
      initiate_data_validation env =
        (.ok ⟨env.report_file_path⟩,
         [(env.report_file_path, serializeReport R)])) := by
  rcases hb : initiateBody env with e | R
  · rcases e with p | m
    · exact Or.inl ⟨.ofPy p "initiate_data_validation",
        by simp [initiate_data_validation, hb], Or.inl ⟨p, rfl⟩⟩
    · exact Or.inl ⟨.ofMice m "initiate_data_validation",
        by simp [initiate_data_validation, hb], Or.inr ⟨m, rfl⟩⟩
  · exact Or.inr ⟨R, rfl, by simp [initiate_data_validation, hb]⟩

/-- **C6.**  Running the full validation twice on identical inputs and
identical configuration produces byte-identical report content: the
pipeline is a function of its inputs, and the label-encoding order is
deterministic — the fitted classes are the sorted distinct values, which
depend only on the multiset of column values (invariant under any
permutation of the rows). -/
theorem initiate_deterministic (env₁ env₂ : Env) (h : env₁ = env₂) :
    initiate_data_validation env₁ = initiate_data_validation env₂ ∧
    (∀ xs ys : List Cell, xs.Perm ys → uniqueSorted xs = uniqueSorted ys) ∧
    (∀ xs ys : List Cell, xs.Perm ys →
      ∀ c : Cell, (uniqueSorted xs).indexOf c = (uniqueSorted ys).indexOf c) := by
  subst h
  have hperm : ∀ xs ys : List Cell, xs.Perm ys →
      uniqueSorted xs = uniqueSorted ys := by
    intro xs ys hp
    unfold uniqueSorted
    have h1 : (xs.insertionSort cellR).Perm (ys.insertionSort cellR) :=
      ((List.perm_insertionSort cellR xs).trans hp).trans
        (List.perm_insertionSort cellR ys).symm
    rw [List.eq_of_perm_of_sorted h1 (List.sorted_insertionSort cellR xs)
      (List.sorted_insertionSort cellR ys)]
  exact ⟨rfl, hperm, fun xs ys hp c => by rw [hperm xs ys hp]⟩

/-- **C7.**  On a dataframe containing the expected categorical columns,
the categorical encoding succeeds (no explicit error is raised) and maps
each value outside the hardcoded value-to-code dictionaries — and `NaN`
itself — to a missing/`NaN` entry, which is then seen as missing data by
the subsequent missing-value-drop computation. -/
theorem encode_unmapped_to_missing (df : DataFrame) (g t b k : List Cell)
    (hg : getCol df "Genotype" = some g)
    (ht : getCol df "Treatment" = some t)
    (hb : getCol df "Behavior" = some b)
    (hk : getCol df "class" = some k) :
    ∃ enc, encodeCats df = .ok enc ∧
      getCol enc "Genotype" = some (g.map (mapCell genotypeDict)) ∧
      getCol enc "Treatment" = some (t.map (mapCell treatmentDict)) ∧
      getCol enc "Behavior" = some (b.map (mapCell behaviorDict)) ∧
      (∀ v : Val, v ≠ .str "Control" → v ≠ .str "Ts65Dn" →
        mapCell genotypeDict (some v) = none) ∧
      (∀ v : Val, v ≠ .str "Saline" → v ≠ .str "Memantine" →
        mapCell treatmentDict (some v) = none) ∧
      (∀ v : Val, v ≠ .str "C/S" → v ≠ .str "S/C" →
        mapCell behaviorDict (some v) = none) ∧
      mapCell genotypeDict none = none ∧
      mapCell treatmentDict none = none ∧
      mapCell behaviorDict none = none := by
  have m1 : "Genotype" ∈ colNames df := (getCol_isSome_iff _ _).1 (by simp [hg])
  have m2 : "Treatment" ∈ colNames df :=
    (getCol_isSome_iff _ _).1 (by simp [ht])
  have m3 : "Behavior" ∈ colNames df := (getCol_isSome_iff _ _).1 (by simp [hb])
  refine ⟨_, encodeCats_eq df g t b k hg ht hb hk, ?_, ?_, ?_, ?_, ?_, ?_,
    rfl, rfl, rfl⟩
  · rw [getCol_setCol_ne _ (by decide), getCol_setCol_ne _ (by decide),
      getCol_setCol_ne _ (by decide), getCol_setCol_self m1]
  · rw [getCol_setCol_ne _ (by decide), getCol_setCol_ne _ (by decide),
      getCol_setCol_self (by rwa [colNames_setCol_of_mem m1])]
  · rw [getCol_setCol_ne _ (by decide),
      getCol_setCol_self (by
        rwa [colNames_setCol_of_mem (by rwa [colNames_setCol_of_mem m1]),
          colNames_setCol_of_mem m1])]
  · intro v h1 h2
    simp [mapCell, genotypeDict, List.lookup, beq_eq_false_iff_ne.2 h1,
      beq_eq_false_iff_ne.2 h2]
  · intro v h1 h2
    simp [mapCell, treatmentDict, List.lookup, beq_eq_false_iff_ne.2 h1,
      beq_eq_false_iff_ne.2 h2]
  · intro v h1 h2
    simp [mapCell, behaviorDict, List.lookup, beq_eq_false_iff_ne.2 h1,
      beq_eq_false_iff_ne.2 h2]

theorem writeH_same (h : Heap) (i : ℕ) (df : DataFrame) :
    writeH h i df i = df := by
  simp [writeH]

theorem writeH_other (h : Heap) (i : ℕ) (df : DataFrame) {j : ℕ}
    (hj : j ≠ i) : writeH h i df j = h j := by
  simp [writeH, hj]

/-- **C9.**  `drop_missing_value_columns` mutates its input dataframe in
place: on success the caller's object `i` itself holds the fully
transformed frame — categorical columns overwritten with their encodings
and the high-missing columns dropped — whether or not the returned value
is the `None` signal, the returned reference is the very same object `i`
when columns remain, no other heap object is touched, and the
result/report agree with the functional model of the method. -/
theorem drop_missing_value_columns_inplace_mutates (t : ℚ) (h : Heap)
    (i : ℕ) (key : String) (r : Report) (h' : Heap) (oref : Option ℕ)
    (r' : Report)
    (hok : drop_missing_value_columns_inplace t h i key r =
      .ok (h', oref, r')) :
    ∃ enc, encodeCats (h i) = .ok enc ∧
      h' i = removeCols enc (dropColumnNames t enc) ∧
      (∀ j, j ≠ i → h' j = h j) ∧
      drop_missing_value_columns t (h i) key r = .ok
        ((if (removeCols enc (dropColumnNames t enc)).cols.isEmpty then none
          else some (removeCols enc (dropColumnNames t enc))), r') ∧
      oref = (if (removeCols enc (dropColumnNames t enc)).cols.isEmpty then
        none else some i) := by
  rcases hg : getCol (h i) "Genotype" with _ | g
  · simp [drop_missing_value_columns_inplace, requireCol, hg,
      Except.mapError, Bind.bind, Except.bind] at hok
  rcases ht : getCol (setCol (h i) "Genotype" (g.map (mapCell genotypeDict)))
      "Treatment" with _ | tc
  · simp [drop_missing_value_columns_inplace, requireCol, hg, ht,
      writeH_same, Except.mapError, Bind.bind, Except.bind] at hok
  rcases hbb : getCol (setCol (setCol (h i)
      "Genotype" (g.map (mapCell genotypeDict)))
      "Treatment" (tc.map (mapCell treatmentDict))) "Behavior" with _ | bc
  · simp [drop_missing_value_columns_inplace, requireCol, hg, ht, hbb,
      writeH_same, Except.mapError, Bind.bind, Except.bind] at hok
  rcases hkk : getCol (setCol (setCol (setCol (h i)
      "Genotype" (g.map (mapCell genotypeDict)))
      "Treatment" (tc.map (mapCell treatmentDict)))
      "Behavior" (bc.map (mapCell behaviorDict))) "class" with _ | kc
  · simp [drop_missing_value_columns_inplace, requireCol, hg, ht, hbb, hkk,
      writeH_same, Except.mapError, Bind.bind, Except.bind] at hok
  have ht' : getCol (h i) "Treatment" = some tc := by
    rw [← ht, getCol_setCol_ne _ (by decide)]
  have hb' : getCol (h i) "Behavior" = some bc := by
    rw [← hbb, getCol_setCol_ne _ (by decide), getCol_setCol_ne _ (by decide)]
  have hk' : getCol (h i) "class" = some kc := by
    rw [← hkk, getCol_setCol_ne _ (by decide), getCol_setCol_ne _ (by decide),
      getCol_setCol_ne _ (by decide)]
  have henc := encodeCats_eq (h i) g tc bc kc hg ht' hb' hk'
  refine ⟨_, henc, ?_⟩
  by_cases hemp : (removeCols (setCol (setCol (setCol (setCol (h i)
      "Genotype" (g.map (mapCell genotypeDict)))
      "Treatment" (tc.map (mapCell treatmentDict)))
      "Behavior" (bc.map (mapCell behaviorDict)))
      "class" (labelTransform kc))
      (dropColumnNames t (setCol (setCol (setCol (setCol (h i)
        "Genotype" (g.map (mapCell genotypeDict)))
        "Treatment" (tc.map (mapCell treatmentDict)))
        "Behavior" (bc.map (mapCell behaviorDict)))
        "class" (labelTransform kc)))).cols.isEmpty
  · simp [drop_missing_value_columns_inplace, requireCol, hg, ht, hbb,
      hkk, writeH_same, Except.mapError, Bind.bind, Except.bind, Pure.pure,
      Except.pure, hemp] at hok
    obtain ⟨hh, ho, hr⟩ := hok
    refine ⟨?_, ?_, ?_, ?_⟩
    · rw [← hh, writeH_same]
    · intro j hj
      rw [← hh, writeH_other _ _ _ hj, writeH_other _ _ _ hj,
        writeH_other _ _ _ hj, writeH_other _ _ _ hj, writeH_other _ _ _ hj]
    · rw [drop_missing_value_columns_eq henc]
      rw [if_pos hemp, hr]
    · rw [if_pos hemp, ← ho]
  · simp [drop_missing_value_columns_inplace, requireCol, hg, ht, hbb,
      hkk, writeH_same, Except.mapError, Bind.bind, Except.bind, Pure.pure,
      Except.pure, hemp] at hok
    obtain ⟨hh, ho, hr⟩ := hok
    refine ⟨?_, ?_, ?_, ?_⟩
    · rw [← hh, writeH_same]
    · intro j hj
      rw [← hh, writeH_other _ _ _ hj, writeH_other _ _ _ hj,
        writeH_other _ _ _ hj, writeH_other _ _ _ hj, writeH_other _ _ _ hj]
    · rw [drop_missing_value_columns_eq henc]
      rw [if_neg hemp, hr]
    · rw [if_neg hemp, ← ho]

theorem colNames_replaceNa (df : DataFrame) :
    colNames (replaceNa df) = colNames df := by
  unfold replaceNa colNames
  rw [List.map_map]
  rfl

theorem encodeCats_err_of_missing {df : DataFrame} {c0 : String}
    (hc : c0 ∈ (["Genotype", "Treatment", "Behavior", "class"] : List String))
    (hno : c0 ∉ colNames df) :
    ∃ c, c ∈ (["Genotype", "Treatment", "Behavior", "class"] : List String) ∧
      c ∉ colNames df ∧ encodeCats df = .error (.keyError c) := by
  by_cases m1 : "Genotype" ∈ colNames df
  · obtain ⟨g, hg⟩ := Option.isSome_iff_exists.1 ((getCol_isSome_iff _ _).2 m1)
    by_cases m2 : "Treatment" ∈ colNames df
    · obtain ⟨t, ht⟩ :=
        Option.isSome_iff_exists.1 ((getCol_isSome_iff _ _).2 m2)
      have ht1 : getCol (setCol df "Genotype" (g.map (mapCell genotypeDict)))
          "Treatment" = some t := by
        rw [getCol_setCol_ne _ (by decide)]; exact ht
      by_cases m3 : "Behavior" ∈ colNames df
      · obtain ⟨b, hb⟩ :=
          Option.isSome_iff_exists.1 ((getCol_isSome_iff _ _).2 m3)
        have hb2 : getCol (setCol (setCol df
            "Genotype" (g.map (mapCell genotypeDict)))
            "Treatment" (t.map (mapCell treatmentDict))) "Behavior" =
            some b := by
          rw [getCol_setCol_ne _ (by decide), getCol_setCol_ne _ (by decide)]
          exact hb
        by_cases m4 : "class" ∈ colNames df
        · exfalso
          simp only [List.mem_cons, List.not_mem_nil, or_false] at hc
          rcases hc with rfl | rfl | rfl | rfl
          · exact hno m1
          · exact hno m2
          · exact hno m3
          · exact hno m4
        · have hk3 : getCol (setCol (setCol (setCol df
              "Genotype" (g.map (mapCell genotypeDict)))
              "Treatment" (t.map (mapCell treatmentDict)))
              "Behavior" (b.map (mapCell behaviorDict))) "class" = none := by
            rw [getCol_eq_none_iff,
              colNames_setCol_of_mem (by
                rw [colNames_setCol_of_mem (by
                    rw [colNames_setCol_of_mem m1]; exact m2),
                  colNames_setCol_of_mem m1]
                exact m3),
              colNames_setCol_of_mem (by
                rw [colNames_setCol_of_mem m1]; exact m2),
              colNames_setCol_of_mem m1]
            exact m4
          refine ⟨"class", by decide, m4, ?_⟩
          simp [encodeCats, requireCol, Bind.bind, Except.bind, Functor.map,
            Except.map, Pure.pure, Except.pure, hg, ht1, hb2, hk3]
      · have hb2 : getCol (setCol (setCol df
            "Genotype" (g.map (mapCell genotypeDict)))
            "Treatment" (t.map (mapCell treatmentDict))) "Behavior" =
            none := by
          rw [getCol_eq_none_iff,
            colNames_setCol_of_mem (by
              rw [colNames_setCol_of_mem m1]; exact m2),
            colNames_setCol_of_mem m1]
          exact m3
        refine ⟨"Behavior", by decide, m3, ?_⟩
        simp [encodeCats, requireCol, Bind.bind, Except.bind, Functor.map,
          Except.map, Pure.pure, Except.pure, hg, ht1, hb2]
    · have ht1 : getCol (setCol df "Genotype" (g.map (mapCell genotypeDict)))
          "Treatment" = none := by
        rw [getCol_eq_none_iff, colNames_setCol_of_mem m1]
        exact m2
      refine ⟨"Treatment", by decide, m2, ?_⟩
      simp [encodeCats, requireCol, Bind.bind, Except.bind, Functor.map,
        Except.map, Pure.pure, Except.pure, hg, ht1]
  · exact ⟨"Genotype", by decide, m1, encodeCats_err_of_no_genotype m1⟩

/-- **C10.**  The categorical encoding is applied unconditionally to every
dataframe handed to `drop_missing_value_columns` — it succeeds exactly
when the four hardcoded columns are all present, so *any* of the three
frames (the cleaned base, the train frame, or the test frame) lacking
*any* of `Genotype`, `Treatment`, `Behavior`, `class` aborts the whole
run with the wrapped domain error whose origin is the `KeyError` for a
missing one of those columns, and nothing is written — and the
missing-value ratios that decide the dropping are computed on the encoded
frame (the recorded drop list is `dropColumnNames` of the encoded frame,
in which unmapped categorical values have become `NaN`). -/
theorem encode_everywhere_and_postencode_ratios :
    (∀ df : DataFrame, (∃ enc, encodeCats df = .ok enc) ↔
      ("Genotype" ∈ colNames df ∧ "Treatment" ∈ colNames df ∧
       "Behavior" ∈ colNames df ∧ "class" ∈ colNames df)) ∧
    (∀ (env : Env) (braw b1 : DataFrame) (c0 : String),
      env.baseFile = .ok braw →
      dropMouseID braw = .ok b1 →
      c0 ∈ (["Genotype", "Treatment", "Behavior", "class"] : List String) →
      c0 ∉ colNames b1 →
      ∃ e c, initiate_data_validation env = (.error e, []) ∧
        c ∈ (["Genotype", "Treatment", "Behavior", "class"] : List String) ∧
        c ∉ colNames b1 ∧ e.origin = .keyError c) ∧
    (∀ (env : Env) (obase : Option DataFrame) (r1 : Report)
        (tdf tedf : DataFrame) (c0 : String),
      basePhase env = .ok (obase, r1) →
      env.trainFile = .ok tdf →
      env.testFile = .ok tedf →
      c0 ∈ (["Genotype", "Treatment", "Behavior", "class"] : List String) →
      c0 ∉ colNames tdf →
      ∃ e c, initiate_data_validation env = (.error e, []) ∧
        c ∈ (["Genotype", "Treatment", "Behavior", "class"] : List String) ∧
        c ∉ colNames tdf ∧ e.origin = .keyError c) ∧
    (∀ (env : Env) (obase : Option DataFrame) (r1 : Report)
        (tdf tedf : DataFrame) (otrain : Option DataFrame) (r2 : Report)
        (c0 : String),
      basePhase env = .ok (obase, r1) →
      env.trainFile = .ok tdf →
      env.testFile = .ok tedf →
      drop_missing_value_columns env.threshold tdf
        "missing_values_within_train_dataset" r1 = .ok (otrain, r2) →
      c0 ∈ (["Genotype", "Treatment", "Behavior", "class"] : List String) →
      c0 ∉ colNames tedf →
      ∃ e c, initiate_data_validation env = (.error e, []) ∧
        c ∈ (["Genotype", "Treatment", "Behavior", "class"] : List String) ∧
        c ∉ colNames tedf ∧ e.origin = .keyError c) ∧
    (∀ (t : ℚ) (df : DataFrame) (key : String) (r : Report)
        (res : Option DataFrame) (r' : Report),
      drop_missing_value_columns t df key r = .ok (res, r') →
      ∃ enc, encodeCats df = .ok enc ∧
        r' = upsertA r key (.strs (dropColumnNames t enc))) := by
  refine ⟨encodeCats_isOk_iff, ?_, ?_, ?_, ?_⟩
  · intro env braw b1 c0 hbf hdm hc0 hn0
    obtain ⟨c, hcmem, hcno, hencerr⟩ := encodeCats_err_of_missing hc0
      (show c0 ∉ colNames (replaceNa b1) by rwa [colNames_replaceNa])
    rw [colNames_replaceNa] at hcno
    have hdrop := @drop_missing_value_columns_err env.threshold
      (replaceNa b1) "missing_values_within_base_dataset" [] _ hencerr
    have hbp : basePhase env = .error (Sum.inr
        (.ofPy (.keyError c) "drop_missing_value_columns")) := by
      simp [basePhase, hbf, hdm, hdrop, Bind.bind, Except.bind,
        Except.mapError]
    have hprep : prepPhase env = .error (Sum.inr
        (.ofPy (.keyError c) "drop_missing_value_columns")) := by
      simp [prepPhase, hbp, Bind.bind, Except.bind]
    have hbody : initiateBody env = .error (Sum.inr
        (.ofPy (.keyError c) "drop_missing_value_columns")) := by
      simp [initiateBody, hprep, Bind.bind, Except.bind]
    refine ⟨.ofMice (.ofPy (.keyError c)
      "drop_missing_value_columns") "initiate_data_validation", c, ?_,
      hcmem, hcno, rfl⟩
    simp [initiate_data_validation, hbody]
  · intro env obase r1 tdf tedf c0 hbase htr hte hc0 hn0
    obtain ⟨c, hcmem, hcno, hencerr⟩ := encodeCats_err_of_missing hc0 hn0
    have hdrop := @drop_missing_value_columns_err env.threshold tdf
      "missing_values_within_train_dataset" r1 _ hencerr
    have hprep : prepPhase env = .error (Sum.inr
        (.ofPy (.keyError c) "drop_missing_value_columns")) := by
      simp [prepPhase, hbase, htr, hte, hdrop, Bind.bind, Except.bind,
        Except.mapError]
    have hbody : initiateBody env = .error (Sum.inr
        (.ofPy (.keyError c) "drop_missing_value_columns")) := by
      simp [initiateBody, hprep, Bind.bind, Except.bind]
    refine ⟨.ofMice (.ofPy (.keyError c)
      "drop_missing_value_columns") "initiate_data_validation", c, ?_,
      hcmem, hcno, rfl⟩
    simp [initiate_data_validation, hbody]
  · intro env obase r1 tdf tedf otrain r2 c0 hbase htr hte hd1 hc0 hn0
    obtain ⟨c, hcmem, hcno, hencerr⟩ := encodeCats_err_of_missing hc0 hn0
    have hdrop := @drop_missing_value_columns_err env.threshold tedf
      "missing_values_within_test_dataset" r2 _ hencerr
    have hprep : prepPhase env = .error (Sum.inr
        (.ofPy (.keyError c) "drop_missing_value_columns")) := by
      simp [prepPhase, hbase, htr, hte, hd1, hdrop, Bind.bind, Except.bind,
        Except.mapError]
    have hbody : initiateBody env = .error (Sum.inr
        (.ofPy (.keyError c) "drop_missing_value_columns")) := by
      simp [initiateBody, hprep, Bind.bind, Except.bind]
    refine ⟨.ofMice (.ofPy (.keyError c)
      "drop_missing_value_columns") "initiate_data_validation", c, ?_,
      hcmem, hcno, rfl⟩
    simp [initiate_data_validation, hbody]
  · intro t df key r res r' h
    obtain ⟨enc, henc, hr', _⟩ := drop_missing_value_columns_ok_inv h
    exact ⟨enc, henc, hr'⟩

theorem basePhase_ok_inv {env : Env} {obase : Option DataFrame} {r1 : Report}
    (h : basePhase env = .ok (obase, r1)) :
    ∃ baseRaw base1, env.baseFile = .ok baseRaw ∧
      dropMouseID baseRaw = .ok base1 ∧
      drop_missing_value_columns env.threshold (replaceNa base1)
        "missing_values_within_base_dataset" [] = .ok (obase, r1) := by
  rcases hbf : env.baseFile with p | baseRaw
  · simp [basePhase, hbf, Bind.bind, Except.bind, Except.mapError] at h
  rcases hdm : dropMouseID baseRaw with p | base1
  · simp [basePhase, hbf, hdm, Bind.bind, Except.bind, Except.mapError] at h
  rcases hdr : drop_missing_value_columns env.threshold (replaceNa base1)
      "missing_values_within_base_dataset" [] with p | pr
  · simp [basePhase, hbf, hdm, hdr, Bind.bind, Except.bind,
      Except.mapError] at h
  · obtain ⟨o, r⟩ := pr
    simp [basePhase, hbf, hdm, hdr, Bind.bind, Except.bind,
      Except.mapError] at h
    exact ⟨baseRaw, base1, rfl, hdm, by rw [hdr, h.1, h.2]⟩

theorem prepPhase_ok_inv {env : Env} {base train test : DataFrame}
    {r3 : Report} (h : prepPhase env = .ok (base, train, test, r3)) :
    ∃ obase r1 tdf tedf otrain r2 otest,
      basePhase env = .ok (obase, r1) ∧
      env.trainFile = .ok tdf ∧ env.testFile = .ok tedf ∧
      drop_missing_value_columns env.threshold tdf
        "missing_values_within_train_dataset" r1 = .ok (otrain, r2) ∧
      drop_missing_value_columns env.threshold tedf
        "missing_values_within_test_dataset" r2 = .ok (otest, r3) ∧
      convertStep obase [TARGET_COLUMN] = .ok base ∧
      convertStep otrain [TARGET_COLUMN] = .ok train ∧
      convertStep otest [TARGET_COLUMN] = .ok test := by
  rcases hbp : basePhase env with p | pr
  · simp [prepPhase, hbp, Bind.bind, Except.bind, Except.mapError] at h
  obtain ⟨obase, r1⟩ := pr
  rcases htf : env.trainFile with p | tdf
  · simp [prepPhase, hbp, htf, Bind.bind, Except.bind, Except.mapError] at h
  rcases hsf : env.testFile with p | tedf
  · simp [prepPhase, hbp, htf, hsf, Bind.bind, Except.bind,
      Except.mapError] at h
  rcases hd1 : drop_missing_value_columns env.threshold tdf
      "missing_values_within_train_dataset" r1 with p | pr1
  · simp [prepPhase, hbp, htf, hsf, hd1, Bind.bind, Except.bind,
      Except.mapError] at h
  obtain ⟨otrain, r2⟩ := pr1
  rcases hd2 : drop_missing_value_columns env.threshold tedf
      "missing_values_within_test_dataset" r2 with p | pr2
  · simp [prepPhase, hbp, htf, hsf, hd1, hd2, Bind.bind, Except.bind,
      Except.mapError] at h
  obtain ⟨otest, r3'⟩ := pr2
  rcases hc1 : convertStep obase [TARGET_COLUMN] with p | cb
  · simp [prepPhase, hbp, htf, hsf, hd1, hd2, hc1, Bind.bind, Except.bind,
      Except.mapError] at h
  rcases hc2 : convertStep otrain [TARGET_COLUMN] with p | ct
  · simp [prepPhase, hbp, htf, hsf, hd1, hd2, hc1, hc2, Bind.bind,
      Except.bind, Except.mapError] at h
  rcases hc3 : convertStep otest [TARGET_COLUMN] with p | cs
  · simp [prepPhase, hbp, htf, hsf, hd1, hd2, hc1, hc2, hc3, Bind.bind,
      Except.bind, Except.mapError] at h
  · simp [prepPhase, hbp, htf, hsf, hd1, hd2, hc1, hc2, hc3, Bind.bind,
      Except.bind, Except.mapError, Pure.pure, Except.pure] at h
    obtain ⟨hb, ht, hs, hr⟩ := h
    exact ⟨obase, r1, tdf, tedf, otrain, r2, otest, rfl, rfl, rfl,
      by rw [hd1], by rw [hd2, hr], by rw [hc1, hb], by rw [hc2, ht],
      by rw [hc3, hs]⟩

theorem initiateBody_ok_inv {env : Env} {R : Report}
    (h : initiateBody env = .ok R) :
    ∃ base train test r3, prepPhase env = .ok (base, train, test, r3) ∧
      parityDriftPhase env.ks base train test r3 = .ok R := by
  rcases hp : prepPhase env with p | q
  · simp [initiateBody, hp, Bind.bind, Except.bind, Except.mapError] at h
  obtain ⟨base, train, test, r3⟩ := q
  rcases hq : parityDriftPhase env.ks base train test r3 with p | R'
  · simp [initiateBody, hp, hq, Bind.bind, Except.bind, Except.mapError] at h
  · simp [initiateBody, hp, hq, Bind.bind, Except.bind, Except.mapError] at h
    exact ⟨base, train, test, r3, rfl, by rw [hq, h]⟩

theorem keysA_isreq (b c : DataFrame) (k : String) (r : Report) :
    keysA (is_required_columns_exists b c k r).2 ⊆ k :: keysA r := by
  unfold is_required_columns_exists
  by_cases hm : ((colNames b).filter
      (fun x => ¬ (colNames c).contains x)).length > 0
  · rw [if_pos hm]
    exact keysA_upsertA_subset r k _
  · rw [if_neg hm]
    exact List.subset_cons_self _ _

theorem driftLoop_keys (ks : List Cell → List Cell → ℚ) (cur : DataFrame)
    (key : String) : ∀ (cols : List (String × List Cell))
    (d : List (String × DriftRes)) (r r' : Report),
    driftLoop ks cur key cols d r = .ok r' →
    keysA r' ⊆ key :: keysA r := by
  intro cols
  induction cols with
  | nil =>
      intro d r r' h
      simp [driftLoop] at h
      rw [← h]
      exact List.subset_cons_self _ _
  | cons p rest ih =>
      intro d r r' h
      obtain ⟨c₀, b₀⟩ := p
      rcases hc : getCol cur c₀ with _ | cdata
      · simp [driftLoop, hc] at h
      · rw [driftLoop, hc] at h
        intro x hx
        rcases List.mem_cons.1 (ih _ _ _ h hx) with hh | hh
        · exact List.mem_cons.2 (Or.inl hh)
        · rcases List.mem_cons.1 (keysA_upsertA_subset r key _ hh) with
            h2 | h2
          · exact List.mem_cons.2 (Or.inl h2)
          · exact List.mem_cons.2 (Or.inr h2)

theorem data_drift_ok_inv {ks : List Cell → List Cell → ℚ}
    {base cur : DataFrame} {key : String} {r r' : Report}
    (h : data_drift ks base cur key r = .ok r') :
    driftLoop ks cur key base.cols [] r = .ok r' := by
  rcases hl : driftLoop ks cur key base.cols [] r with p | r''
  · rw [data_drift, hl] at h
    simp [Except.mapError] at h
  · rw [data_drift, hl] at h
    simp [Except.mapError] at h
    rw [h]

theorem data_drift_isSome {ks : List Cell → List Cell → ℚ}
    {base cur : DataFrame} {key : String} {r r' : Report}
    (hne : base.cols ≠ [])
    (h : data_drift ks base cur key r = .ok r') :
    (lookupA r' key).isSome = true := by
  rcases driftLoop_final ks cur key base.cols [] r r' (data_drift_ok_inv h)
    with ⟨hnil, _⟩ | ⟨dfi, hl, _⟩
  · exact absurd hnil hne
  · simp [hl]

theorem data_drift_preserves {ks : List Cell → List Cell → ℚ}
    {base cur : DataFrame} {key k' : String} {r r' : Report}
    (hne : k' ≠ key) (h : data_drift ks base cur key r = .ok r') :
    lookupA r' k' = lookupA r k' :=
  driftLoop_other_key ks cur key base.cols [] r r' k' hne
    (data_drift_ok_inv h)

theorem prep_keys {env : Env} {base train test : DataFrame} {r3 : Report}
    (h : prepPhase env = .ok (base, train, test, r3)) :
    ∀ x ∈ keysA r3, x = "missing_values_within_test_dataset" ∨
      x = "missing_values_within_train_dataset" ∨
      x = "missing_values_within_base_dataset" := by
  obtain ⟨obase, r1, tdf, tedf, otrain, r2, otest, hbp, _, _, hd1, hd2,
    _, _, _⟩ := prepPhase_ok_inv h
  obtain ⟨_, _, _, _, hd0⟩ := basePhase_ok_inv hbp
  obtain ⟨e0, _, hr1, _⟩ := drop_missing_value_columns_ok_inv hd0
  obtain ⟨e1, _, hr2, _⟩ := drop_missing_value_columns_ok_inv hd1
  obtain ⟨e2, _, hr3, _⟩ := drop_missing_value_columns_ok_inv hd2
  intro x hx
  rw [hr3] at hx
  rcases List.mem_cons.1 (keysA_upsertA_subset r2 _ _ hx) with h1 | h1
  · exact Or.inl h1
  rw [hr2] at h1
  rcases List.mem_cons.1 (keysA_upsertA_subset r1 _ _ h1) with h2 | h2
  · exact Or.inr (Or.inl h2)
  rw [hr1] at h2
  rcases List.mem_cons.1 (keysA_upsertA_subset [] _ _ h2) with h3 | h3
  · exact Or.inr (Or.inr h3)
  · simp [keysA] at h3

/-- **C4.**  In every successful run of `initiate_data_validation`, drift
detection is performed for a candidate (train or test) iff the schema
parity check for that candidate returned complete: when the base frame has
columns, the drift report key for a candidate is present iff its parity
check returned `True`; and when parity failed the drift key is absent
altogether — the skip is silent, leaving only the missing-columns entry. -/
theorem initiate_drift_iff_parity (env : Env) (R : Report)
    (h : initiateBody env = .ok R) :
    ∃ base train test r3,
      prepPhase env = .ok (base, train, test, r3) ∧
      ((is_required_columns_exists base train
          "missing_columns_within_train_dataset" r3).1 = false →
        lookupA R "data_drift_within_train_dataset" = none) ∧
      ((is_required_columns_exists base test
          "missing_columns_within_test_dataset"
          (is_required_columns_exists base train
            "missing_columns_within_train_dataset" r3).2).1 = false →
        lookupA R "data_drift_within_test_dataset" = none) ∧
      (base.cols ≠ [] →
        ((lookupA R "data_drift_within_train_dataset").isSome =
          (is_required_columns_exists base train
            "missing_columns_within_train_dataset" r3).1 ∧
         (lookupA R "data_drift_within_test_dataset").isSome =
          (is_required_columns_exists base test
            "missing_columns_within_test_dataset"
            (is_required_columns_exists base train
              "missing_columns_within_train_dataset" r3).2).1)) := by
  obtain ⟨base, train, test, r3, hprep, hpar⟩ := initiateBody_ok_inv h
  refine ⟨base, train, test, r3, hprep, ?_⟩
  rcases hq1 : is_required_columns_exists base train
    "missing_columns_within_train_dataset" r3 with ⟨tb, r4⟩
  rcases hq2 : is_required_columns_exists base test
    "missing_columns_within_test_dataset" r4 with ⟨sb, r5⟩
  simp only [parityDriftPhase, hq1, hq2] at hpar
  have hk5 : ∀ x ∈ keysA r5,
      x = "missing_columns_within_test_dataset" ∨
      x = "missing_columns_within_train_dataset" ∨
      x = "missing_values_within_test_dataset" ∨
      x = "missing_values_within_train_dataset" ∨
      x = "missing_values_within_base_dataset" := by
    intro x hx
    have h1 := keysA_isreq base test "missing_columns_within_test_dataset" r4
    rw [hq2] at h1
    rcases List.mem_cons.1 (h1 hx) with e | e
    · exact Or.inl e
    have h2 := keysA_isreq base train
      "missing_columns_within_train_dataset" r3
    rw [hq1] at h2
    rcases List.mem_cons.1 (h2 e) with e2 | e2
    · exact Or.inr (Or.inl e2)
    rcases prep_keys hprep x e2 with e3 | e3 | e3
    · exact Or.inr (Or.inr (Or.inl e3))
    · exact Or.inr (Or.inr (Or.inr (Or.inl e3)))
    · exact Or.inr (Or.inr (Or.inr (Or.inr e3)))
  have hnoTr : lookupA r5 "data_drift_within_train_dataset" = none := by
    refine lookupA_eq_none_of_not_mem (fun hx => ?_)
    rcases hk5 _ hx with e | e | e | e | e <;> exact absurd e (by decide)
  have hnoTe : lookupA r5 "data_drift_within_test_dataset" = none := by
    refine lookupA_eq_none_of_not_mem (fun hx => ?_)
    rcases hk5 _ hx with e | e | e | e | e <;> exact absurd e (by decide)
  cases tb
  · cases sb
    · simp [Bind.bind, Except.bind, Pure.pure, Except.pure] at hpar
      obtain rfl := hpar
      refine ⟨?_, ?_, ?_⟩
      · intro _
        exact hnoTr
      · intro _
        exact hnoTe
      · intro _
        exact ⟨by rw [hnoTr]; rfl, by rw [hnoTe]; rfl⟩
    · simp [Bind.bind, Except.bind, Pure.pure, Except.pure] at hpar
      refine ⟨?_, ?_, ?_⟩
      · intro _
        rw [data_drift_preserves (by decide) hpar, hnoTr]
      · intro hf
        simp at hf
      · intro hne
        refine ⟨?_, data_drift_isSome hne hpar⟩
        rw [data_drift_preserves (by decide) hpar, hnoTr]
        rfl
  · rcases h6 : data_drift env.ks base train
        "data_drift_within_train_dataset" r5 with e | r6
    · simp [Bind.bind, Except.bind, h6] at hpar
    cases sb
    · simp [Bind.bind, Except.bind, h6, Pure.pure, Except.pure] at hpar
      obtain rfl := hpar
      refine ⟨?_, ?_, ?_⟩
      · intro hf
        simp at hf
      · intro _
        rw [data_drift_preserves (by decide) h6, hnoTe]
      · intro hne
        refine ⟨data_drift_isSome hne h6, ?_⟩
        rw [data_drift_preserves (by decide) h6, hnoTe]
        rfl
    · simp [Bind.bind, Except.bind, h6] at hpar
      refine ⟨?_, ?_, ?_⟩
      · intro hf
        simp at hf
      · intro hf
        simp at hf
      · intro hne
        refine ⟨?_, data_drift_isSome hne hpar⟩
        rw [data_drift_preserves (by decide) hpar]
        exact data_drift_isSome hne h6

theorem shouldDrop_of_no_missing {xs : List Cell}
    (h : countMissing xs = 0) (n : ℕ) {t : ℚ} (ht : 0 ≤ t) :
    shouldDrop n t xs = false := by
  unfold shouldDrop
  rw [h, Nat.cast_zero, zero_div]
  rw [decide_eq_false (not_lt.2 ht)]
  simp

theorem dropColumnNames_nil {t : ℚ} {df : DataFrame}
    (h : ∀ p ∈ df.cols, shouldDrop df.nrows t p.2 = false) :
    dropColumnNames t df = [] := by
  unfold dropColumnNames
  have : df.cols.filter (fun p => shouldDrop df.nrows t p.2) = [] :=
    List.filter_eq_nil_iff.2 (fun p hp => by rw [h p hp]; simp)
  rw [this]
  rfl

theorem writeH_writeH (h : Heap) (i : ℕ) (df df' : DataFrame) :
    writeH (writeH h i df) i df' = writeH h i df' :=
  funext fun j => by by_cases hj : j = i <;> simp [writeH, hj]

theorem drop_missing_value_columns_inplace_eq {t : ℚ} {h : Heap} {i : ℕ}
    {key : String} {r : Report} {g tc bc kc : List Cell}
    (hg : getCol (h i) "Genotype" = some g)
    (ht' : getCol (h i) "Treatment" = some tc)
    (hb' : getCol (h i) "Behavior" = some bc)
    (hk' : getCol (h i) "class" = some kc) :
    ∃ enc, encodeCats (h i) = .ok enc ∧
      drop_missing_value_columns_inplace t h i key r = .ok
        (writeH h i (removeCols enc (dropColumnNames t enc)),
         (if (removeCols enc (dropColumnNames t enc)).cols.isEmpty then none
          else some i),
         upsertA r key (.strs (dropColumnNames t enc))) := by
  have ht1 : getCol (setCol (h i) "Genotype" (g.map (mapCell genotypeDict)))
      "Treatment" = some tc := by
    rw [getCol_setCol_ne _ (by decide)]; exact ht'
  have hb2 : getCol (setCol (setCol (h i)
      "Genotype" (g.map (mapCell genotypeDict)))
      "Treatment" (tc.map (mapCell treatmentDict))) "Behavior" = some bc := by
    rw [getCol_setCol_ne _ (by decide), getCol_setCol_ne _ (by decide)]
    exact hb'
  have hk3 : getCol (setCol (setCol (setCol (h i)
      "Genotype" (g.map (mapCell genotypeDict)))
      "Treatment" (tc.map (mapCell treatmentDict)))
      "Behavior" (bc.map (mapCell behaviorDict))) "class" = some kc := by
    rw [getCol_setCol_ne _ (by decide), getCol_setCol_ne _ (by decide),
      getCol_setCol_ne _ (by decide)]
    exact hk'
  refine ⟨_, encodeCats_eq (h i) g tc bc kc hg ht' hb' hk', ?_⟩
  by_cases hemp : (removeCols (setCol (setCol (setCol (setCol (h i)
      "Genotype" (g.map (mapCell genotypeDict)))
      "Treatment" (tc.map (mapCell treatmentDict)))
      "Behavior" (bc.map (mapCell behaviorDict)))
      "class" (labelTransform kc))
      (dropColumnNames t (setCol (setCol (setCol (setCol (h i)
        "Genotype" (g.map (mapCell genotypeDict)))
        "Treatment" (tc.map (mapCell treatmentDict)))
        "Behavior" (bc.map (mapCell behaviorDict)))
        "class" (labelTransform kc)))).cols.isEmpty <;>
    simp only [drop_missing_value_columns_inplace, requireCol, hg, ht1, hb2,
      hk3, writeH_same, writeH_writeH, Except.mapError, Bind.bind,
      Except.bind, Pure.pure, Except.pure, hemp, if_true, if_false,
      Bool.false_eq_true, if_pos, if_neg]

/-- Witness for C1 at a concrete frame and threshold 1/2. -/
theorem drop_missing_value_columns_exact_witness :
    (colNames exDf).Nodup ∧
    ∃ res r', drop_missing_value_columns (1/2) exDf "mv" [] = .ok (res, r') ∧
      ∃ enc, encodeCats exDf = .ok enc ∧
        lookupA r' "mv" = some (.strs (dropColumnNames (1/2) enc)) ∧
        (∀ c xs, (c, xs) ∈ enc.cols →
          (c ∈ dropColumnNames (1/2) enc ↔
            shouldDrop enc.nrows (1/2) xs = true)) ∧
        (∀ df2, res = some df2 →
          colNames df2 = (colNames enc).filter
            (fun c => ¬ (dropColumnNames (1/2) enc).contains c)) ∧
        (res = none →
          (colNames enc).filter
            (fun c => ¬ (dropColumnNames (1/2) enc).contains c) = []) ∧
        (∀ c, c ∉ (["Genotype", "Treatment", "Behavior", "class"] :
            List String) → getCol enc c = getCol exDf c) := by
  refine ⟨by decide, ?_⟩
  obtain ⟨enc, henc⟩ := (encodeCats_isOk_iff exDf).2
    ⟨by decide, by decide, by decide, by decide⟩
  have hdrop := @drop_missing_value_columns_eq (1/2 : ℚ) exDf enc "mv" []
    henc
  exact ⟨_, _, hdrop, drop_missing_value_columns_exact (1/2) exDf "mv" []
    _ _ (by decide) hdrop⟩

/-- Witness for C3 at concrete frames and the constant-1/2 test stub. -/
theorem data_drift_records_witness :
    (∀ a b, 0 ≤ exKs a b ∧ exKs a b ≤ 1) ∧ (colNames exDriftBase).Nodup ∧
    ∃ r', data_drift exKs exDriftBase exDriftCur "dk" [] = .ok r' ∧
      ∀ c bdata, (c, bdata) ∈ exDriftBase.cols →
        ∃ dfi entry, lookupA r' "dk" = some (.driftMap dfi) ∧
          lookupA dfi c = some entry ∧
          0 ≤ entry.pvalues ∧ entry.pvalues ≤ 1 ∧
          (entry.same_distribution = true ↔ entry.pvalues > 0.05) := by
  have hks : ∀ a b, 0 ≤ exKs a b ∧ exKs a b ≤ 1 := by
    intro a b
    constructor <;> norm_num [exKs]
  refine ⟨hks, by decide, ?_⟩
  have hok0 : isOkE (data_drift exKs exDriftBase exDriftCur "dk" []) =
      true := by decide
  rcases hok : data_drift exKs exDriftBase exDriftCur "dk" [] with e | r'
  · rw [hok] at hok0
    simp [isOkE] at hok0
  · exact ⟨r', rfl, data_drift_records exKs exDriftBase exDriftCur "dk" []
      r' hks (by decide) hok⟩

/-- Witness for C4 on a concrete environment where the whole run
succeeds. -/
theorem initiate_drift_iff_parity_witness :
    ∃ R, initiateBody exEnv = .ok R ∧
      ∃ base train test r3,
        prepPhase exEnv = .ok (base, train, test, r3) ∧
        ((is_required_columns_exists base train
            "missing_columns_within_train_dataset" r3).1 = false →
          lookupA R "data_drift_within_train_dataset" = none) ∧
        ((is_required_columns_exists base test
            "missing_columns_within_test_dataset"
            (is_required_columns_exists base train
              "missing_columns_within_train_dataset" r3).2).1 = false →
          lookupA R "data_drift_within_test_dataset" = none) ∧
        (base.cols ≠ [] →
          ((lookupA R "data_drift_within_train_dataset").isSome =
            (is_required_columns_exists base train
              "missing_columns_within_train_dataset" r3).1 ∧
           (lookupA R "data_drift_within_test_dataset").isSome =
            (is_required_columns_exists base test
              "missing_columns_within_test_dataset"
              (is_required_columns_exists base train
                "missing_columns_within_train_dataset" r3).2).1)) := by
  have hencB : encodeCats exBase1 = .ok exEnc := by decide
  have hnone : ∀ p ∈ exEnc.cols,
      shouldDrop exEnc.nrows (1/5 : ℚ) p.2 = false := by
    intro p hp
    have ht : (0:ℚ) ≤ 1/5 := by norm_num
    simp only [exEnc, List.mem_cons, List.not_mem_nil, or_false] at hp
    rcases hp with h | h | h | h <;>
      (rw [h]; exact shouldDrop_of_no_missing (by decide) _ ht)
  have hdcn : dropColumnNames (1/5 : ℚ) exEnc = [] := dropColumnNames_nil hnone
  have hdropGen : ∀ key r, drop_missing_value_columns (1/5 : ℚ) exBase1 key r
      = .ok (some exEnc, upsertA r key (.strs [])) := by
    intro key r
    have h0 := @drop_missing_value_columns_eq (1/5 : ℚ) exBase1 exEnc key r
      hencB
    rw [hdcn] at h0
    rw [show removeCols exEnc [] = exEnc from by decide] at h0
    rw [show exEnc.cols.isEmpty = false from by decide] at h0
    simpa using h0
  have hconv : convertStep (some exEnc) [TARGET_COLUMN] = .ok exEnc := by
    decide
  have hbp : basePhase exEnv = .ok (some exEnc,
      upsertA [] "missing_values_within_base_dataset" (.strs [])) := by
    simp only [basePhase,
      show exEnv.baseFile = Except.ok exBaseRaw from rfl,
      show exEnv.threshold = (1/5 : ℚ) from rfl,
      Except.mapError, Bind.bind, Except.bind,
      show dropMouseID exBaseRaw = Except.ok exBase1 from by decide,
      show replaceNa exBase1 = exBase1 from by decide,
      hdropGen]
  have hprep : prepPhase exEnv = .ok (exEnc, exEnc, exEnc,
      upsertA (upsertA (upsertA [] "missing_values_within_base_dataset"
        (.strs [])) "missing_values_within_train_dataset" (.strs []))
        "missing_values_within_test_dataset" (.strs [])) := by
    simp only [prepPhase, hbp, Except.mapError, Bind.bind, Except.bind,
      show exEnv.trainFile = Except.ok exBase1 from rfl,
      show exEnv.testFile = Except.ok exBase1 from rfl,
      show exEnv.threshold = (1/5 : ℚ) from rfl,
      hdropGen, hconv, Pure.pure, Except.pure]
  rcases hpd : parityDriftPhase exEnv.ks exEnc exEnc exEnc
      (upsertA (upsertA (upsertA [] "missing_values_within_base_dataset"
        (.strs [])) "missing_values_within_train_dataset" (.strs []))
        "missing_values_within_test_dataset" (.strs [])) with e | R
  · exfalso
    have hok2 : isOkE (parityDriftPhase exEnv.ks exEnc exEnc exEnc
        (upsertA (upsertA (upsertA [] "missing_values_within_base_dataset"
          (.strs [])) "missing_values_within_train_dataset" (.strs []))
          "missing_values_within_test_dataset" (.strs []))) = true := by
      decide
    rw [hpd] at hok2
    simp [isOkE] at hok2
  · have hbody : initiateBody exEnv = .ok R := by
      simp only [initiateBody, hprep, Bind.bind, Except.bind,
        Except.mapError, hpd]
    exact ⟨R, hbody, initiate_drift_iff_parity exEnv R hbody⟩

/-- Witness for C6 at a concrete environment. -/
theorem initiate_deterministic_witness :
    initiate_data_validation exEnv = initiate_data_validation exEnv ∧
    (∀ xs ys : List Cell, xs.Perm ys → uniqueSorted xs = uniqueSorted ys) ∧
    (∀ xs ys : List Cell, xs.Perm ys →
      ∀ c : Cell, (uniqueSorted xs).indexOf c =
        (uniqueSorted ys).indexOf c) :=
  initiate_deterministic exEnv exEnv rfl

/-- Witness for C7 at a concrete frame. -/
theorem encode_unmapped_to_missing_witness :
    ∃ g t b k, getCol exDf "Genotype" = some g ∧
      getCol exDf "Treatment" = some t ∧
      getCol exDf "Behavior" = some b ∧
      getCol exDf "class" = some k ∧
      ∃ enc, encodeCats exDf = .ok enc ∧
        getCol enc "Genotype" = some (g.map (mapCell genotypeDict)) ∧
        getCol enc "Treatment" = some (t.map (mapCell treatmentDict)) ∧
        getCol enc "Behavior" = some (b.map (mapCell behaviorDict)) ∧
        (∀ v : Val, v ≠ .str "Control" → v ≠ .str "Ts65Dn" →
          mapCell genotypeDict (some v) = none) ∧
        (∀ v : Val, v ≠ .str "Saline" → v ≠ .str "Memantine" →
          mapCell treatmentDict (some v) = none) ∧
        (∀ v : Val, v ≠ .str "C/S" → v ≠ .str "S/C" →
          mapCell behaviorDict (some v) = none) ∧
        mapCell genotypeDict none = none ∧
        mapCell treatmentDict none = none ∧
        mapCell behaviorDict none = none := by
  refine ⟨_, _, _, _, rfl, rfl, rfl, rfl, ?_⟩
  exact encode_unmapped_to_missing exDf _ _ _ _ rfl rfl rfl rfl

/-- Witness for C8 at a concrete frame and threshold 1/2. -/
theorem drop_missing_value_columns_frame_witness :
    ∃ res r', drop_missing_value_columns (1/2) exDf "mv" [] = .ok (res, r') ∧
      ∃ enc, encodeCats exDf = .ok enc ∧
        (∀ df2, res = some df2 → df2.nrows = exDf.nrows ∧
          ∀ c xs, (c, xs) ∈ df2.cols → (c, xs) ∈ enc.cols) ∧
        (res = none ↔
          (removeCols enc (dropColumnNames (1/2) enc)).cols.isEmpty =
            true) := by
  obtain ⟨enc, henc⟩ := (encodeCats_isOk_iff exDf).2
    ⟨by decide, by decide, by decide, by decide⟩
  have hdrop := @drop_missing_value_columns_eq (1/2 : ℚ) exDf enc "mv" []
    henc
  exact ⟨_, _, hdrop, drop_missing_value_columns_frame (1/2) exDf "mv" []
    _ _ hdrop⟩

/-- Witness for C9 on a concrete heap. -/
theorem drop_missing_value_columns_inplace_mutates_witness :
    ∃ h' oref r', drop_missing_value_columns_inplace (1/2) exHeap 0 "mv" []
        = .ok (h', oref, r') ∧
      ∃ enc, encodeCats (exHeap 0) = .ok enc ∧
        h' 0 = removeCols enc (dropColumnNames (1/2) enc) ∧
        (∀ j, j ≠ 0 → h' j = exHeap j) ∧
        drop_missing_value_columns (1/2) (exHeap 0) "mv" [] = .ok
          ((if (removeCols enc (dropColumnNames (1/2) enc)).cols.isEmpty
            then none
            else some (removeCols enc (dropColumnNames (1/2) enc))), r') ∧
        oref = (if (removeCols enc
            (dropColumnNames (1/2) enc)).cols.isEmpty then
          none else some 0) := by
  obtain ⟨g, hgw⟩ := Option.isSome_iff_exists.1
    ((getCol_isSome_iff (exHeap 0) "Genotype").2 (by decide))
  obtain ⟨tc, htw⟩ := Option.isSome_iff_exists.1
    ((getCol_isSome_iff (exHeap 0) "Treatment").2 (by decide))
  obtain ⟨bc, hbw⟩ := Option.isSome_iff_exists.1
    ((getCol_isSome_iff (exHeap 0) "Behavior").2 (by decide))
  obtain ⟨kc, hkw⟩ := Option.isSome_iff_exists.1
    ((getCol_isSome_iff (exHeap 0) "class").2 (by decide))
  obtain ⟨enc, henc, hok⟩ := @drop_missing_value_columns_inplace_eq
    (1/2 : ℚ) exHeap 0 "mv" [] g tc bc kc hgw htw hbw hkw
  exact ⟨_, _, _, hok, drop_missing_value_columns_inplace_mutates
    (1/2) exHeap 0 "mv" [] _ _ _ hok⟩

end MiceValidation
